import Mathlib

/-!
Shallow embedding of the agent coordination and aggregation engine of the
onboarding repository: the perceive/decide/act/reflect execution loop
(`BaseAgent.run`), the four specialized agents (HR, IT setup, Training,
Buddy), the orchestrator (`Orchestrator.onboard`, `buildSummary`,
`buildTimeline`) and the classifier's risk scoring (`ClfModel._classifyRisk`),
together with theorems settling the frozen claims about them.

Modelling conventions:
* JavaScript objects become structures.  A key that may be absent is an
  `Option` field; `none` means the key is absent, `some v` that it is present
  with value `v`.  JavaScript truthiness of a string field is
  `truthyS` (present and non-empty; `null` and `""` behave identically in
  the source, both are represented by `some ""` or `none` as appropriate),
  of a boolean flag `truthyB`.
* Wall-clock data (log timestamps, `onboardingStarted`,
  `orchestrationTimeMs`, `classifiedAt`) is dropped: no claim mentions it.
* `startDate` is represented by the value `_leadDays` would compute for it
  (days between today and the parsed date, negative if in the past);
  an absent or empty date string is `none`.
* Buddy ratings (JS floating-point literals with one decimal digit) are
  modelled as exact rationals.
-/

/-- Log entry as produced by `BaseAgent.addLog` and by the orchestrator's
synthetic error entries (timestamp dropped, see module docstring). -/
structure LogEntry where
  agent : String
  action : String
  detail : String
deriving DecidableEq

/-- Metadata attached by the Training agent to module tasks. -/
structure TaskMeta where
  duration : String
  format : String
deriving DecidableEq

/-- Task record as created by the agents' act phases (the source's `Task`;
renamed because Lean core already declares a `Task` type). -/
structure TaskRec where
  id : String
  agent : String
  type : String
  title : String
  status : String
  priority : String
  dueInDays : Option Nat := none
  category : String
  note : Option String := none
  metadata : Option TaskMeta := none
deriving DecidableEq

/-- A member of the Buddy agent's candidate pool. -/
structure Buddy where
  id : String
  name : String
  department : String
  seniority : String
  rating : ℚ
deriving DecidableEq

/-- A scored pool member (`{...buddy, score}` in `BuddyAgent.perceive`);
this is also what `employee.buddy` is set to by `assign_buddy`. -/
structure ScoredBuddy where
  id : String
  name : String
  department : String
  seniority : String
  rating : ℚ
  score : ℚ
deriving DecidableEq

/-- Employee record.  `documents` abbreviates the submitted document
objects by their `id` (the only field the source reads).  The `buddy`
field conflates an absent key with a present `null` (they are
indistinguishable to every reader, and the only writer is the Buddy agent,
last in overlay order). -/
structure Employee where
  firstName : String
  lastName : String
  department : Option String := none
  role : Option String := none
  location : Option String := none
  manager : Option String := none
  email : Option String := none
  startDate : Option Int := none
  documents : List String := []
  accounts : List String := []
  hardware : List String := []
  tasks : List TaskRec := []
  policiesAcknowledged : List String := []
  completedTraining : List String := []
  buddy : Option ScoredBuddy := none
  emailProvisioned : Option Bool := none
  benefitsEnrollmentStarted : Option Bool := none
  checkInsScheduled : Option Bool := none
  managerMeetingScheduled : Option Bool := none
  teamIntroScheduled : Option Bool := none
deriving DecidableEq

/-- JS truthiness of a possibly-absent string field. -/
def truthyS (o : Option String) : Bool := !(o.getD "").isEmpty

/-- JS truthiness of a possibly-absent boolean flag. -/
def truthyB (o : Option Bool) : Bool := o.getD false

/-- JS `x || dflt` for a string field. -/
def strOr (o : Option String) (dflt : String) : String :=
  if truthyS o then o.getD "" else dflt

/-- `toLowerCase()`, as a structural character map (equivalent to
`String.toLower` for the ASCII data this system handles, and reducible in
the kernel). -/
def strToLower (s : String) : String := ⟨s.data.map Char.toLower⟩

/-- Key-presence overwrite used to model one field of `Object.assign`:
the source value wins when its key is present. -/
def keyOr {α : Type} (src base : Option α) : Option α :=
  match src with
  | some v => some v
  | none => base

/-- HR perception scratch data (`context.hrPerception`). -/
structure HRPerception where
  requiredDocsIds : List String
  missing : List String
  submitted : List String
deriving DecidableEq

/-- IT perception scratch data (`context.itPerception`). -/
structure ITProfile where
  software : List String
  hardware : List String
  access : List String
deriving DecidableEq

structure ITPerception where
  profile : ITProfile
  department : String
  existingAccounts : List String
  existingHardware : List String
deriving DecidableEq

/-- A training module from the Training agent's catalogs. -/
structure TrainingModule where
  id : String
  title : String
  duration : String
  type : String
deriving DecidableEq

structure TrainingPerception where
  companyWideModules : List TrainingModule
  roleModules : List TrainingModule
  completedModules : List String
  department : String
deriving DecidableEq

structure BuddyPerception where
  candidates : List ScoredBuddy
  alreadyAssigned : Bool
deriving DecidableEq

/-- The shared per-run context: one employee snapshot plus the agents'
private perception scratch space. -/
structure Context where
  employee : Employee
  hrPerception : Option HRPerception := none
  itPerception : Option ITPerception := none
  trainingPerception : Option TrainingPerception := none
  buddyPerception : Option BuddyPerception := none
deriving DecidableEq

/-- Agent lifecycle states of `BaseAgent` (`idle | running | completed | error`). -/
inductive AgentStatus where
  | idle
  | running
  | completed
  | error
deriving DecidableEq

/-- An agent, as consumed by the generic execution loop: the four
overridable phases of `BaseAgent`.  Each phase may throw
(`Except.error` with the error message) and reports the log entries it
appends via `addLog` while running.  `choose` is the source's `decide`
phase (renamed: `decide` would shadow the Lean tactic/function). -/
structure AgentSpec (Ctx : Type) (Action : Type) where
  name : String
  perceive : Ctx → Except String (Ctx × List LogEntry)
  choose : Ctx → Except String (List Action × List LogEntry)
  act : Ctx → List Action → Except String (Ctx × List LogEntry)
  reflect : Ctx → Except String (Ctx × Bool × List LogEntry)

def startEntry (n : String) : LogEntry :=
  ⟨n, "start", "Agent " ++ n ++ " starting"⟩

def completeEntry (n : String) : LogEntry :=
  ⟨n, "complete", "Agent " ++ n ++ " finished successfully"⟩

def noActionsEntry (n : String) : LogEntry :=
  ⟨n, "no-actions", "No further actions required"⟩

def errorEntry (n m : String) : LogEntry := ⟨n, "error", m⟩

/-- Result of `BaseAgent.run`: final status, the agent instance's full log
(the pre-existing instance log plus this run's entries), the number of
loop-body iterations executed, and either the returned context
(`{context, log}` on fulfilment) or the rethrown error message. -/
structure RunResult (Ctx : Type) where
  status : AgentStatus
  log : List LogEntry
  iterations : Nat
  outcome : Except String Ctx

instance {ε α : Type} [DecidableEq ε] [DecidableEq α] : DecidableEq (Except ε α) :=
  fun x y =>
    match x, y with
    | .ok a, .ok b => decidable_of_iff (a = b) (by simp)
    | .ok _, .error _ => isFalse (by simp)
    | .error _, .ok _ => isFalse (by simp)
    | .error a, .error b => decidable_of_iff (a = b) (by simp)

instance {Ctx : Type} [DecidableEq Ctx] : DecidableEq (RunResult Ctx) :=
  fun a b =>
    decidable_of_iff
      (a.status = b.status ∧ a.log = b.log ∧ a.iterations = b.iterations ∧
        a.outcome = b.outcome)
      (by cases a; cases b; simp)

/-- The body of `BaseAgent.run`'s bounded `for` loop, with explicit fuel
(remaining iterations), accumulated instance log and iteration counter.
Exhausted fuel corresponds to the `for` loop ending after
`MAX_ITERATIONS` passes, after which the source marks the agent completed. -/
def runLoop {Ctx Action : Type} (A : AgentSpec Ctx Action) :
    Nat → Ctx → List LogEntry → Nat → RunResult Ctx
  | 0, ctx, log, iters =>
    ⟨.completed, log ++ [completeEntry A.name], iters, .ok ctx⟩
  | fuel + 1, ctx, log, iters =>
    match A.perceive ctx with
    | .error e => ⟨.error, log ++ [errorEntry A.name e], iters + 1, .error e⟩
    | .ok (pctx, plog) =>
      match A.choose pctx with
      | .error e =>
        ⟨.error, log ++ plog ++ [errorEntry A.name e], iters + 1, .error e⟩
      | .ok (actions, dlog) =>
        if actions.isEmpty then
          ⟨.completed,
            log ++ plog ++ dlog ++ [noActionsEntry A.name, completeEntry A.name],
            iters + 1, .ok ctx⟩
        else
          match A.act pctx actions with
          | .error e =>
            ⟨.error, log ++ plog ++ dlog ++ [errorEntry A.name e], iters + 1, .error e⟩
          | .ok (actx, alog) =>
            match A.reflect actx with
            | .error e =>
              ⟨.error, log ++ plog ++ dlog ++ alog ++ [errorEntry A.name e],
                iters + 1, .error e⟩
            | .ok (rctx, complete, rlog) =>
              if complete then
                ⟨.completed, log ++ plog ++ dlog ++ alog ++ rlog ++ [completeEntry A.name],
                  iters + 1, .ok rctx⟩
              else
                runLoop A fuel rctx (log ++ plog ++ dlog ++ alog ++ rlog) (iters + 1)

/-- `MAX_ITERATIONS` of `BaseAgent.run`. -/
def MAX_ITERATIONS : Nat := 5

/-- `BaseAgent.run`: logs the `start` entry onto the instance log
`instLog` and executes the bounded loop. -/
def runAgent {Ctx Action : Type} (A : AgentSpec Ctx Action)
    (instLog : List LogEntry) (ctx : Ctx) : RunResult Ctx :=
  runLoop A MAX_ITERATIONS ctx (instLog ++ [startEntry A.name]) 0

/-- A required HR document (`{id, label}` entries of `requiredDocs`). -/
structure HRDoc where
  id : String
  label : String
deriving DecidableEq

def hrName : String := "HR Agent"

/-- `HRAgent.perceive`'s static `requiredDocs` catalog. -/
def hrRequiredDocs : List HRDoc :=
  [⟨"government_id", "Government-issued ID"⟩,
   ⟨"tax_w4", "W-4 Tax Withholding Form"⟩,
   ⟨"i9_form", "I-9 Employment Eligibility"⟩,
   ⟨"direct_deposit", "Direct Deposit Authorization"⟩,
   ⟨"emergency_contact", "Emergency Contact Form"⟩,
   ⟨"nda", "Non-Disclosure Agreement"⟩]

/-- `HRAgent.decide`'s static `policies` catalog. -/
def hrPolicies : List String :=
  ["code_of_conduct", "data_privacy", "remote_work", "anti_harassment"]

/-- `HRAgent.perceive`. -/
def hrPerceive (c : Context) : Context :=
  let submitted := c.employee.documents
  let missing := hrRequiredDocs.filter (fun d => !(submitted.contains d.id))
  { c with hrPerception := some ⟨hrRequiredDocs.map (·.id), missing.map (·.id), submitted⟩ }

/-- The missing-documents list that `HRAgent.perceive` stores (with labels,
as consumed by `decide`/`act`). -/
def hrMissingDocs (e : Employee) : List HRDoc :=
  hrRequiredDocs.filter (fun d => !(e.documents.contains d.id))

inductive HRAction where
  | requestDocuments (documents : List HRDoc)
  | assignPolicyAcknowledgments (policies : List String)
  | initiateBenefitsEnrollment
deriving DecidableEq

def hrPendingPolicies (e : Employee) : List String :=
  hrPolicies.filter (fun p => !(e.policiesAcknowledged.contains p))

/-- `HRAgent.decide` (the three pushes, in source order; each `if` models
`length > 0` / the `!flag` check).  Like the source, it is only ever
invoked on a context that `perceive` has enriched. -/
def hrChoose (c : Context) : List HRAction :=
  (if !(hrMissingDocs c.employee).isEmpty then
      [.requestDocuments (hrMissingDocs c.employee)] else []) ++
  (if !(hrPendingPolicies c.employee).isEmpty then
      [.assignPolicyAcknowledgments (hrPendingPolicies c.employee)] else []) ++
  (if !truthyB c.employee.benefitsEnrollmentStarted then
      [.initiateBenefitsEnrollment] else [])

def hrDocTask (d : HRDoc) : TaskRec :=
  { id := "hr-doc-" ++ d.id, agent := hrName, type := "document_upload",
    title := "Upload: " ++ d.label, status := "pending", priority := "high",
    dueInDays := some 3, category := "HR Documents" }

/-- `policy.replace(/_/g, ' ').replace(/\b\w/g, c => c.toUpperCase())`:
for the underscore-separated lowercase policy names this capitalizes each
word and joins with spaces. -/
def policyLabel (p : String) : String :=
  String.intercalate " " ((p.splitOn "_").map String.capitalize)

def hrPolicyTask (p : String) : TaskRec :=
  { id := "hr-policy-" ++ p, agent := hrName, type := "policy_acknowledgment",
    title := "Acknowledge: " ++ policyLabel p ++ " Policy", status := "pending",
    priority := "medium", dueInDays := some 5, category := "Policies" }

def hrBenefitsTask : TaskRec :=
  { id := "hr-benefits-enrollment", agent := hrName, type := "benefits_enrollment",
    title := "Complete Benefits Enrollment", status := "pending",
    priority := "medium", dueInDays := some 14, category := "Benefits" }

/-- Append tasks to the context's employee (`context.employee.tasks.push`). -/
def pushTasks (c : Context) (ts : List TaskRec) : Context :=
  { c with employee := { c.employee with tasks := c.employee.tasks ++ ts } }

/-- One `case` of `HRAgent.act`'s switch. -/
def hrActStep (acc : Context × List LogEntry) (a : HRAction) : Context × List LogEntry :=
  match a with
  | .requestDocuments docs =>
    (pushTasks acc.1 (docs.map hrDocTask),
     acc.2 ++ [⟨hrName, "request_documents",
       "Requested " ++ toString docs.length ++ " documents"⟩])
  | .assignPolicyAcknowledgments ps =>
    (pushTasks acc.1 (ps.map hrPolicyTask),
     acc.2 ++ [⟨hrName, "assign_policies",
       "Assigned " ++ toString ps.length ++ " policy acknowledgments"⟩])
  | .initiateBenefitsEnrollment =>
    (pushTasks
       { acc.1 with employee :=
           { acc.1.employee with benefitsEnrollmentStarted := some true } }
       [hrBenefitsTask],
     acc.2 ++ [⟨hrName, "benefits_enrollment", "Initiated benefits enrollment"⟩])

def hrAct (c : Context) (actions : List HRAction) : Context × List LogEntry :=
  actions.foldl hrActStep (c, [])

def hrReflect (c : Context) : Context × Bool × List LogEntry :=
  let hrTasks := c.employee.tasks.filter (fun t => t.agent == hrName)
  let pendingCount := (hrTasks.filter (fun t => t.status == "pending")).length
  (c, true,
   [⟨hrName, "reflect",
     "HR onboarding: " ++ toString hrTasks.length ++ " tasks created, " ++
       toString pendingCount ++ " pending"⟩])

def hrSpec : AgentSpec Context HRAction where
  name := hrName
  perceive c := .ok (hrPerceive c, [])
  choose c := .ok (hrChoose c, [])
  act c actions := .ok (hrAct c actions)
  reflect c := .ok (hrReflect c)

def itName : String := "IT Setup Agent"

/-- `ITSetupAgent.perceive`'s `roleProfiles` table with its `default`
fallback (`roleProfiles[department] || roleProfiles.default`). -/
def roleProfiles (department : String) : ITProfile :=
  if department = "engineering" then
    ⟨["IDE License", "GitHub Enterprise", "Jira", "Slack", "AWS Console"],
     ["MacBook Pro 16\"", "External Monitor 27\"", "Mechanical Keyboard", "USB-C Hub"],
     ["VPN", "CI/CD Pipeline", "Staging Servers", "Code Repositories"]⟩
  else if department = "design" then
    ⟨["Figma Enterprise", "Adobe Creative Suite", "Slack", "Jira"],
     ["MacBook Pro 16\"", "External Monitor 32\" 4K", "Wacom Tablet"],
     ["VPN", "Design Asset Library", "Brand Portal"]⟩
  else if department = "product" then
    ⟨["Jira", "Confluence", "Slack", "Amplitude", "Mixpanel"],
     ["MacBook Pro 14\"", "External Monitor 27\""],
     ["VPN", "Analytics Dashboard", "Customer Feedback Portal"]⟩
  else if department = "sales" then
    ⟨["Salesforce", "Slack", "Zoom Pro", "DocuSign"],
     ["MacBook Air", "External Monitor 24\""],
     ["VPN", "CRM", "Sales Playbook"]⟩
  else
    ⟨["Slack", "Google Workspace", "Zoom"],
     ["Laptop", "External Monitor 24\""],
     ["VPN", "Company Intranet"]⟩

/-- `(employee.department || 'default').toLowerCase()`. -/
def deptKey (e : Employee) : String := strToLower (strOr e.department "default")

/-- `ITSetupAgent.perceive`. -/
def itPerceive (c : Context) : Context :=
  let department := deptKey c.employee
  let perc : ITPerception :=
    ⟨roleProfiles department, department, c.employee.accounts, c.employee.hardware⟩
  { c with itPerception := some perc }

inductive ITAction where
  | provisionEmail (email : String)
  | assignSoftware (software : List String)
  | requestHardware (hardware : List String)
  | configureAccess (access : List String)
deriving DecidableEq

/-- The email address template of `ITSetupAgent.decide`. -/
def genEmail (e : Employee) : String :=
  strToLower e.firstName ++ "." ++ strToLower e.lastName ++ "@company.com"

def neededSoftware (p : ITProfile) (accounts : List String) : List String :=
  p.software.filter (fun s => !(accounts.contains s))

def neededHardware (p : ITProfile) (hardware : List String) : List String :=
  p.hardware.filter (fun h => !(hardware.contains h))

/-- `ITSetupAgent.decide`.  Note that `configure_access` is pushed
unconditionally. -/
def itChoose (c : Context) : List ITAction :=
  let p := (c.itPerception.map (·.profile)).getD ⟨[], [], []⟩
  let accounts := (c.itPerception.map (·.existingAccounts)).getD []
  let hardware := (c.itPerception.map (·.existingHardware)).getD []
  (if !truthyB c.employee.emailProvisioned then
     [.provisionEmail (genEmail c.employee)] else []) ++
  (if !(neededSoftware p accounts).isEmpty then
     [.assignSoftware (neededSoftware p accounts)] else []) ++
  (if !(neededHardware p hardware).isEmpty then
     [.requestHardware (neededHardware p hardware)] else []) ++
  [.configureAccess p.access]

/-- `replace(/X+/g, '-')`: collapse each maximal run of matching characters
into a single dash. -/
def collapseRuns (p : Char → Bool) (s : String) : String :=
  ((s.data.foldl
      (fun (st : List Char × Bool) c =>
        if p c then (if st.2 then st.1 else st.1 ++ ['-'], true)
        else (st.1 ++ [c], false))
      ([], false)).1).asString

/-- `sw.toLowerCase().replace(/\s+/g, '-')`. -/
def swSlug (s : String) : String := collapseRuns (fun c => c.isWhitespace) (strToLower s)

/-- `hw.toLowerCase().replace(/[\s"]+/g, '-')`. -/
def hwSlug (s : String) : String :=
  collapseRuns (fun c => c.isWhitespace || c == '\"') (strToLower s)

/-- `acc.toLowerCase().replace(/[\s/]+/g, '-')`. -/
def accessSlug (s : String) : String :=
  collapseRuns (fun c => c.isWhitespace || c == '/') (strToLower s)

def itEmailTask (email : String) : TaskRec :=
  { id := "it-email-setup", agent := itName, type := "auto_provisioned",
    title := "Email provisioned: " ++ email, status := "completed",
    priority := "high", category := "IT Accounts" }

def itSwTask (sw : String) : TaskRec :=
  { id := "it-sw-" ++ swSlug sw, agent := itName, type := "auto_provisioned",
    title := "License assigned: " ++ sw, status := "completed",
    priority := "medium", category := "Software Licenses" }

def itHwTask (hw : String) : TaskRec :=
  { id := "it-hw-" ++ hwSlug hw, agent := itName, type := "hardware_request",
    title := "Hardware: " ++ hw, status := "in_progress", priority := "high",
    dueInDays := some 5, category := "Hardware",
    note := some "Procurement order placed – shipping in progress" }

def itAccessTask (acc : String) : TaskRec :=
  { id := "it-access-" ++ accessSlug acc, agent := itName, type := "auto_provisioned",
    title := "Access granted: " ++ acc, status := "completed", priority := "high",
    category := "Security & Access" }

/-- One `case` of `ITSetupAgent.act`'s switch. -/
def itActStep (acc : Context × List LogEntry) (a : ITAction) : Context × List LogEntry :=
  match a with
  | .provisionEmail em =>
    let c := acc.1
    let c := { c with employee :=
        { c.employee with emailProvisioned := some true, email := some em } }
    (pushTasks c [itEmailTask em],
     acc.2 ++ [⟨itName, "provision_email", "Created email: " ++ em⟩])
  | .assignSoftware sws =>
    let c := pushTasks acc.1 (sws.map itSwTask)
    let c := { c with employee :=
        { c.employee with accounts := c.employee.accounts ++ sws } }
    (c, acc.2 ++ [⟨itName, "assign_software",
       "Assigned " ++ toString sws.length ++ " licenses"⟩])
  | .requestHardware hws =>
    (pushTasks acc.1 (hws.map itHwTask),
     acc.2 ++ [⟨itName, "request_hardware",
       "Requested " ++ toString hws.length ++ " hardware items"⟩])
  | .configureAccess accs =>
    (pushTasks acc.1 (accs.map itAccessTask),
     acc.2 ++ [⟨itName, "configure_access",
       "Configured " ++ toString accs.length ++ " access grants"⟩])

def itAct (c : Context) (actions : List ITAction) : Context × List LogEntry :=
  actions.foldl itActStep (c, [])

def itReflect (c : Context) : Context × Bool × List LogEntry :=
  let itTasks := c.employee.tasks.filter (fun t => t.agent == itName)
  let auto := (itTasks.filter (fun t => t.type == "auto_provisioned")).length
  let pending := (itTasks.filter (fun t => t.status != "completed")).length
  (c, true,
   [⟨itName, "reflect", "IT setup: " ++ toString auto ++ " auto-provisioned, " ++
       toString pending ++ " awaiting fulfillment"⟩])

def itSpec : AgentSpec Context ITAction where
  name := itName
  perceive c := .ok (itPerceive c, [])
  choose c := .ok (itChoose c, [])
  act c actions := .ok (itAct c actions)
  reflect c := .ok (itReflect c)

def trainingName : String := "Training Agent"

/-- `TrainingAgent.perceive`'s static `companyWideModules` catalog. -/
def companyWideModules : List TrainingModule :=
  [⟨"company-overview", "Company Overview & Mission", "45 min", "video"⟩,
   ⟨"security-awareness", "Security Awareness Training", "30 min", "interactive"⟩,
   ⟨"dei-training", "Diversity, Equity & Inclusion", "60 min", "workshop"⟩,
   ⟨"tools-intro", "Internal Tools & Systems Overview", "90 min", "hands-on"⟩]

/-- `TrainingAgent.perceive`'s `roleModules` table with its `default`
fallback (`roleModules[department] || roleModules.default`, the default
being the empty list). -/
def roleModulesFor (department : String) : List TrainingModule :=
  if department = "engineering" then
    [⟨"eng-architecture", "System Architecture Deep Dive", "120 min", "hands-on"⟩,
     ⟨"eng-git-workflow", "Git Workflow & Code Review Process", "60 min", "hands-on"⟩,
     ⟨"eng-ci-cd", "CI/CD Pipeline Walkthrough", "45 min", "video"⟩,
     ⟨"eng-oncall", "On-Call Procedures & Incident Response", "60 min", "interactive"⟩]
  else if department = "design" then
    [⟨"des-system", "Design System & Brand Guidelines", "90 min", "workshop"⟩,
     ⟨"des-research", "User Research Methods", "60 min", "video"⟩,
     ⟨"des-accessibility", "Accessibility Standards (WCAG)", "45 min", "interactive"⟩]
  else if department = "product" then
    [⟨"pm-roadmap", "Product Roadmap & Strategy", "90 min", "workshop"⟩,
     ⟨"pm-analytics", "Analytics & Data-Driven Decisions", "60 min", "hands-on"⟩,
     ⟨"pm-customer", "Customer Journey Mapping", "45 min", "interactive"⟩]
  else if department = "sales" then
    [⟨"sales-product", "Product Knowledge Bootcamp", "120 min", "workshop"⟩,
     ⟨"sales-crm", "CRM & Sales Tools Training", "60 min", "hands-on"⟩,
     ⟨"sales-pitch", "Sales Pitch & Demo Skills", "90 min", "workshop"⟩]
  else []

/-- `TrainingAgent.perceive`. -/
def trainingPerceive (c : Context) : Context :=
  let department := deptKey c.employee
  let perc : TrainingPerception :=
    ⟨companyWideModules, roleModulesFor department, c.employee.completedTraining, department⟩
  { c with trainingPerception := some perc }

inductive TrainingAction where
  | assignModules (modules : List TrainingModule)
  | scheduleManagerMeeting
  | scheduleTeamIntro
deriving DecidableEq

/-- `allModules.filter(m => !completedModules.includes(m.id))` of
`TrainingAgent.decide`. -/
def pendingModules (e : Employee) : List TrainingModule :=
  (companyWideModules ++ roleModulesFor (deptKey e)).filter
    (fun m => !(e.completedTraining.contains m.id))

/-- `TrainingAgent.decide`. -/
def trainingChoose (c : Context) : List TrainingAction :=
  (if !(pendingModules c.employee).isEmpty then
     [.assignModules (pendingModules c.employee)] else []) ++
  (if !truthyB c.employee.managerMeetingScheduled then [.scheduleManagerMeeting] else []) ++
  (if !truthyB c.employee.teamIntroScheduled then [.scheduleTeamIntro] else [])

def weekOneTask (m : TrainingModule) : TaskRec :=
  { id := "training-" ++ m.id, agent := trainingName, type := "training_module",
    title := m.title, status := "pending", priority := "high", dueInDays := some 7,
    category := "Week 1 Training", metadata := some ⟨m.duration, m.type⟩ }

def weekTwoTask (m : TrainingModule) : TaskRec :=
  { id := "training-" ++ m.id, agent := trainingName, type := "training_module",
    title := m.title, status := "pending", priority := "medium", dueInDays := some 14,
    category := "Week 2 Training", metadata := some ⟨m.duration, m.type⟩ }

def managerMeetingTask : TaskRec :=
  { id := "training-manager-1on1", agent := trainingName, type := "meeting",
    title := "1:1 Meeting with Manager", status := "pending", priority := "high",
    dueInDays := some 2, category := "Meetings",
    note := some "Introductory 1:1 – discuss role expectations, goals, and questions" }

def teamIntroTask : TaskRec :=
  { id := "training-team-intro", agent := trainingName, type := "meeting",
    title := "Team Introduction Session", status := "pending", priority := "medium",
    dueInDays := some 3, category := "Meetings",
    note := some "Meet the team – informal introduction and Q&A" }

/-- One `case` of `TrainingAgent.act`'s switch (`weekOne` is the first four
pending modules, `weekTwo` the remainder). -/
def trainingActStep (acc : Context × List LogEntry) (a : TrainingAction) :
    Context × List LogEntry :=
  match a with
  | .assignModules mods =>
    (pushTasks acc.1 ((mods.take 4).map weekOneTask ++ (mods.drop 4).map weekTwoTask),
     acc.2 ++ [⟨trainingName, "assign_modules",
       "Assigned " ++ toString mods.length ++ " training modules"⟩])
  | .scheduleManagerMeeting =>
    (pushTasks
       { acc.1 with employee :=
           { acc.1.employee with managerMeetingScheduled := some true } }
       [managerMeetingTask],
     acc.2 ++ [⟨trainingName, "schedule_meeting", "Scheduled manager 1:1"⟩])
  | .scheduleTeamIntro =>
    (pushTasks
       { acc.1 with employee :=
           { acc.1.employee with teamIntroScheduled := some true } }
       [teamIntroTask],
     acc.2 ++ [⟨trainingName, "schedule_meeting", "Scheduled team introduction"⟩])

def trainingAct (c : Context) (actions : List TrainingAction) : Context × List LogEntry :=
  actions.foldl trainingActStep (c, [])

def trainingReflect (c : Context) : Context × Bool × List LogEntry :=
  let trainingTasks := c.employee.tasks.filter (fun t => t.agent == trainingName)
  let modules := (trainingTasks.filter (fun t => t.type == "training_module")).length
  let meetings := (trainingTasks.filter (fun t => t.type == "meeting")).length
  (c, true,
   [⟨trainingName, "reflect", "Training plan: " ++ toString modules ++
       " modules + " ++ toString meetings ++ " meetings assigned"⟩])

def trainingSpec : AgentSpec Context TrainingAction where
  name := trainingName
  perceive c := .ok (trainingPerceive c, [])
  choose c := .ok (trainingChoose c, [])
  act c actions := .ok (trainingAct c actions)
  reflect c := .ok (trainingReflect c)

def buddyName : String := "Buddy Agent"

/-- The Buddy agent's embedded candidate pool (`this.buddyPool`). -/
def buddyPool : List Buddy :=
  [⟨"b1", "Sarah Chen", "engineering", "senior", 4.9⟩,
   ⟨"b2", "Marcus Johnson", "engineering", "lead", 4.8⟩,
   ⟨"b3", "Priya Patel", "design", "senior", 4.9⟩,
   ⟨"b4", "Alex Rivera", "product", "senior", 4.7⟩,
   ⟨"b5", "Jordan Kim", "sales", "lead", 4.8⟩,
   ⟨"b6", "Emily Thompson", "engineering", "staff", 5.0⟩,
   ⟨"b7", "David O\x27Brien", "product", "director", 4.6⟩,
   ⟨"b8", "Lisa Nakamura", "design", "lead", 4.9⟩]

/-- Scoring rule of `BuddyAgent.perceive`: base rating, plus 3 when the
candidate's department equals the (lowercased) employee department. -/
def scoreBuddy (department : String) (b : Buddy) : ScoredBuddy :=
  ⟨b.id, b.name, b.department, b.seniority, b.rating,
   b.rating + (if b.department = department then 3 else 0)⟩

/-- The comparator `(a, b) => b.score - a.score` as a total preorder:
`a` may come before `b` when `b.score ≤ a.score`. -/
def buddyLE (a b : ScoredBuddy) : Bool := decide (b.score ≤ a.score)

/-- `scored.sort((a, b) => b.score - a.score)`: a stable descending sort
(JavaScript's `Array.prototype.sort` is stable). -/
def sortedCandidates (pool : List Buddy) (department : String) : List ScoredBuddy :=
  (pool.map (scoreBuddy department)).mergeSort buddyLE

/-- `(employee.department || '').toLowerCase()` in `BuddyAgent.perceive`. -/
def buddyDept (e : Employee) : String := strToLower (strOr e.department "")

/-- `BuddyAgent.perceive`, parameterized by the candidate pool
(`this.buddyPool` instance data). -/
def buddyPerceiveWith (pool : List Buddy) (c : Context) : Context :=
  let perc : BuddyPerception :=
    ⟨(sortedCandidates pool (buddyDept c.employee)).take 3, c.employee.buddy.isSome⟩
  { c with buddyPerception := some perc }

inductive BuddyAction where
  | assignBuddy (buddy : ScoredBuddy)
  | scheduleCheckIns
deriving DecidableEq

/-- `BuddyAgent.decide` (`candidates[0]`; the embedded pool is non-empty,
so the `none` branch is unreachable for this agent). -/
def buddyChoose (c : Context) : List BuddyAction :=
  let p := (c.buddyPerception).getD ⟨[], false⟩
  (if !p.alreadyAssigned then
     (match p.candidates.head? with
      | some b => [.assignBuddy b]
      | none => [])
   else []) ++
  (if !truthyB c.employee.checkInsScheduled then [.scheduleCheckIns] else [])

def buddyIntroTask (b : ScoredBuddy) : TaskRec :=
  { id := "buddy-intro-meeting", agent := buddyName, type := "meeting",
    title := "Meet your buddy: " ++ b.name, status := "pending", priority := "high",
    dueInDays := some 2, category := "Buddy Program",
    note := some (b.name ++ " (" ++ b.department ++ ", " ++ b.seniority ++
      ") will be your onboarding buddy for the first 90 days") }

/-- The `checkIns` schedule of `BuddyAgent.act`. -/
def checkIns : List (Nat × String) :=
  [(7, "Week 1 Check-in with Buddy"),
   (14, "Week 2 Check-in with Buddy"),
   (30, "Day 30 Review with Buddy & Manager"),
   (60, "Day 60 Mid-Point Review"),
   (90, "Day 90 Final Onboarding Review")]

def checkInTask (ci : Nat × String) : TaskRec :=
  { id := "buddy-checkin-day" ++ toString ci.1, agent := buddyName, type := "check_in",
    title := ci.2, status := "pending",
    priority := if ci.1 ≤ 14 then "medium" else "low",
    dueInDays := some ci.1, category := "Buddy Program" }

/-- One `case` of `BuddyAgent.act`'s switch. -/
def buddyActStep (acc : Context × List LogEntry) (a : BuddyAction) :
    Context × List LogEntry :=
  match a with
  | .assignBuddy b =>
    (pushTasks { acc.1 with employee := { acc.1.employee with buddy := some b } }
       [buddyIntroTask b],
     acc.2 ++ [⟨buddyName, "assign_buddy", "Matched with buddy: " ++ b.name⟩])
  | .scheduleCheckIns =>
    (pushTasks
       { acc.1 with employee :=
           { acc.1.employee with checkInsScheduled := some true } }
       (checkIns.map checkInTask),
     acc.2 ++ [⟨buddyName, "schedule_check_ins", "Scheduled 5 check-ins over 90 days"⟩])

def buddyAct (c : Context) (actions : List BuddyAction) : Context × List LogEntry :=
  actions.foldl buddyActStep (c, [])

/-- `score.toFixed(1)` for the one-decimal scores that occur. -/
def fixed1 (q : ℚ) : String :=
  let t : ℤ := ⌊q * 10⌋
  toString (t / 10) ++ "." ++ toString (t % 10)

def buddyReflect (c : Context) : Context × Bool × List LogEntry :=
  let detail :=
    match c.employee.buddy with
    | some b => "Buddy assigned: " ++ b.name ++ " (score: " ++ fixed1 b.score ++ ")"
    | none => "No buddy assignment needed"
  (c, true, [⟨buddyName, "reflect", detail⟩])

def buddySpec : AgentSpec Context BuddyAction where
  name := buddyName
  perceive c := .ok (buddyPerceiveWith buddyPool c, [])
  choose c := .ok (buddyChoose c, [])
  act c actions := .ok (buddyAct c actions)
  reflect c := .ok (buddyReflect c)

/-- A timeline entry (`{title, category, status, agent}` projection pushed
by `buildTimeline`). -/
structure TimelineItem where
  title : String
  category : String
  status : String
  agent : String
deriving DecidableEq

/-- The bucket selected by `buildTimeline`'s conditional chain; the scrutinee
`task.dueInDays ?` is JS truthiness, so both an absent `dueInDays` and the
number `0` select `Immediate`. -/
def bucketOf (dueInDays : Option Nat) : String :=
  match dueInDays with
  | none => "Immediate"
  | some d =>
    if d = 0 then "Immediate"
    else if d ≤ 3 then "Day 1-3"
    else if d ≤ 7 then "Week 1"
    else if d ≤ 14 then "Week 2"
    else if d ≤ 30 then "Month 1"
    else "Month 2-3"

def timelineItem (t : TaskRec) : TimelineItem := ⟨t.title, t.category, t.status, t.agent⟩

/-- `Orchestrator.buildTimeline`, as the map from bucket name to the bucket's
items (the source's accumulating object, read by key). -/
def buildTimeline (tasks : List TaskRec) : String → List TimelineItem :=
  tasks.foldl
    (fun tl task => fun b =>
      if b = bucketOf task.dueInDays then tl b ++ [timelineItem task] else tl b)
    (fun _ => [])

/-- Per-agent summary produced by `buildSummary` (`totalActions`, `status`,
`keyEvents`). -/
structure AgentSummary where
  totalActions : Nat
  status : String
  keyEvents : List String
deriving DecidableEq

/-- Plan summary (`orchestrationTimeMs` dropped, see module docstring). -/
structure Summary where
  employeeName : String
  department : Option String
  totalTasks : Nat
  completed : Nat
  inProgress : Nat
  pending : Nat
  agentSummaries : List (String × AgentSummary)
deriving DecidableEq

/-- `Orchestrator.buildSummary`. -/
def buildSummary (employee : Employee) (agentLogs : List (String × List LogEntry)) :
    Summary :=
  let tasks := employee.tasks
  { employeeName := employee.firstName ++ " " ++ employee.lastName
    department := employee.department
    totalTasks := tasks.length
    completed := (tasks.filter (fun t => t.status == "completed")).length
    inProgress := (tasks.filter (fun t => t.status == "in_progress")).length
    pending := (tasks.filter (fun t => t.status == "pending")).length
    agentSummaries := agentLogs.map (fun nl =>
      (nl.1,
       { totalActions := nl.2.length
         status := if nl.2.any (fun l => l.action == "error") then "error" else "success"
         keyEvents :=
           (nl.2.filter (fun l => !(l.action == "start" || l.action == "complete"))).map
             (·.detail) })) }

/-- The complete onboarding plan returned by `Orchestrator.onboard`. -/
structure Plan where
  employee : Employee
  summary : Summary
  agentLogs : List (String × List LogEntry)
  timeline : String → List TimelineItem

/-- Accumulator of `onboard`'s `results.forEach` merge loop: `mergedTasks`,
the `agentLogs` object (as an association list in insertion order) and the
shared employee record being overlaid. -/
structure MergeAcc where
  tasks : List TaskRec
  logs : List (String × List LogEntry)
  employee : Employee

/-- `Object.assign(context.employee, result.value.context.employee)`:
keys always present in an agent's employee copy overwrite; optional keys
overwrite only when present. -/
def overlayEmployee (base src : Employee) : Employee :=
  { firstName := src.firstName
    lastName := src.lastName
    department := keyOr src.department base.department
    role := keyOr src.role base.role
    location := keyOr src.location base.location
    manager := keyOr src.manager base.manager
    email := keyOr src.email base.email
    startDate := keyOr src.startDate base.startDate
    documents := src.documents
    accounts := src.accounts
    hardware := src.hardware
    tasks := src.tasks
    policiesAcknowledged := src.policiesAcknowledged
    completedTraining := src.completedTraining
    buddy := keyOr src.buddy base.buddy
    emailProvisioned := keyOr src.emailProvisioned base.emailProvisioned
    benefitsEnrollmentStarted := keyOr src.benefitsEnrollmentStarted base.benefitsEnrollmentStarted
    checkInsScheduled := keyOr src.checkInsScheduled base.checkInsScheduled
    managerMeetingScheduled := keyOr src.managerMeetingScheduled base.managerMeetingScheduled
    teamIntroScheduled := keyOr src.teamIntroScheduled base.teamIntroScheduled }

/-- One pass of `onboard`'s `results.forEach((result, i) => ...)`:
a fulfilled agent contributes its tasks, its log and its employee-field
overlay; a rejected one contributes only the synthetic error log entry. -/
def mergeStep (acc : MergeAcc) (nr : String × RunResult Context) : MergeAcc :=
  match nr.2.outcome with
  | .ok ctx =>
    ⟨acc.tasks ++ ctx.employee.tasks,
     acc.logs ++ [(nr.1, nr.2.log)],
     overlayEmployee acc.employee ctx.employee⟩
  | .error m =>
    ⟨acc.tasks, acc.logs ++ [(nr.1, [⟨nr.1, "error", m⟩])], acc.employee⟩

/-- `{...employeeData, tasks: [], documents: ... || [], ...}`: the employee
record `onboard` builds before fanning out (collections are plain lists in
the model, so the `|| []` defaults are identities; `onboardingStarted`
dropped). -/
def initEmployee (employeeData : Employee) : Employee :=
  { employeeData with tasks := [] }

/-- `copyFor()`: the isolated deep copy each agent run receives. -/
def copyFor (c : Context) : Context :=
  { c with employee := { c.employee with tasks := [] } }

/-- The merge/summary/timeline tail of `Orchestrator.onboard`, applied to
the four settled results (in the fixed agent order) and the shared
employee record. -/
def onboardCore (rhr rit rtraining rbuddy : RunResult Context) (emp0 : Employee) :
    Plan :=
  let acc := [("hr", rhr), ("it", rit), ("training", rtraining),
    ("buddy", rbuddy)].foldl mergeStep ⟨[], [], emp0⟩
  let employee := { acc.employee with tasks := acc.tasks }
  { employee := employee
    summary := buildSummary employee acc.logs
    agentLogs := acc.logs
    timeline := buildTimeline acc.tasks }

/-- `Orchestrator.onboard`, parameterized by the four agents' `run`
functions.  `Promise.allSettled` delivers the four outcomes positionally,
so the merge consumes them in the fixed agent order however the underlying
promises interleave. -/
def onboard (hr it training buddy : Context → RunResult Context)
    (employeeData : Employee) : Plan :=
  let ctx : Context := { employee := initEmployee employeeData }
  let c := copyFor ctx
  onboardCore (hr c) (it c) (training c) (buddy c) ctx.employee

/-- The four agent instances' `this.log` arrays.  The route module creates
one `Orchestrator` (hence one instance of each agent) at module load, so
these logs persist across `onboard` calls. -/
structure OrchState where
  hrLog : List LogEntry
  itLog : List LogEntry
  trainingLog : List LogEntry
  buddyLog : List LogEntry
deriving DecidableEq

def initOrch : OrchState := ⟨[], [], [], []⟩

/-- `Orchestrator.onboard` with the four concrete agents, threading the
persistent agent-instance logs. -/
def onboardStateful (s : OrchState) (employeeData : Employee) : Plan × OrchState :=
  let ctx : Context := { employee := initEmployee employeeData }
  let c := copyFor ctx
  let rhr := runAgent hrSpec s.hrLog c
  let rit := runAgent itSpec s.itLog c
  let rtraining := runAgent trainingSpec s.trainingLog c
  let rbuddy := runAgent buddySpec s.buddyLog c
  (onboardCore rhr rit rtraining rbuddy ctx.employee,
   ⟨rhr.log, rit.log, rtraining.log, rbuddy.log⟩)

/-- `ClfModel._classifyRisk`'s penalty score. -/
def riskScore (employee : Employee) : Nat :=
  (if !truthyS employee.email then 2 else 0) +
  (if !truthyS employee.role then 2 else 0) +
  (if !truthyS employee.department then 2 else 0) +
  (if !truthyS employee.manager then 1 else 0) +
  (if !truthyS employee.location then 1 else 0) +
  (match employee.startDate with
   | some leadDays =>
     if leadDays < 0 then 3 else if leadDays < 3 then 2 else if leadDays < 7 then 1 else 0
   | none => 1)

/-- The score-to-level mapping at the end of `_classifyRisk`. -/
def riskLevelOfScore (score : Nat) : String :=
  if score ≥ 5 then "high" else if score ≥ 2 then "medium" else "low"

/-- `ClfModel._classifyRisk`. -/
def classifyRisk (employee : Employee) : String := riskLevelOfScore (riskScore employee)

/-- Order of risk levels (`low < medium < high`), for stating that a level
is never raised. -/
def riskRank (level : String) : Nat :=
  if level = "high" then 2 else if level = "medium" then 1 else 0

/-- The five fixed-penalty required fields of `_classifyRisk`. -/
inductive ReqField where
  | email
  | role
  | department
  | manager
  | location
deriving DecidableEq

def getReq (e : Employee) : ReqField → Option String
  | .email => e.email
  | .role => e.role
  | .department => e.department
  | .manager => e.manager
  | .location => e.location

def setReq (e : Employee) : ReqField → String → Employee
  | .email, v => { e with email := some v }
  | .role, v => { e with role := some v }
  | .department, v => { e with department := some v }
  | .manager, v => { e with manager := some v }
  | .location, v => { e with location := some v }

/-- The tasks one HR run appends (documents, then policy acknowledgments,
then the benefits-enrollment task). -/
def hrNewTasks (e : Employee) : List TaskRec :=
  ((hrMissingDocs e).map hrDocTask) ++
  ((hrPendingPolicies e).map hrPolicyTask) ++
  (if !truthyB e.benefitsEnrollmentStarted then [hrBenefitsTask] else [])

/-- Net effect of one HR run on the employee record. -/
def hrApplyEmployee (e : Employee) : Employee :=
  { e with tasks := e.tasks ++ hrNewTasks e,
           benefitsEnrollmentStarted :=
             if !truthyB e.benefitsEnrollmentStarted then some true
             else e.benefitsEnrollmentStarted }

/-- The tasks one IT run appends (email, software, hardware, then the
unconditional access grants). -/
def itNewTasks (e : Employee) : List TaskRec :=
  (if !truthyB e.emailProvisioned then [itEmailTask (genEmail e)] else []) ++
  ((neededSoftware (roleProfiles (deptKey e)) e.accounts).map itSwTask) ++
  ((neededHardware (roleProfiles (deptKey e)) e.hardware).map itHwTask) ++
  ((roleProfiles (deptKey e)).access.map itAccessTask)

/-- Net effect of one IT run on the employee record. -/
def itApplyEmployee (e : Employee) : Employee :=
  { e with tasks := e.tasks ++ itNewTasks e,
           emailProvisioned :=
             if !truthyB e.emailProvisioned then some true else e.emailProvisioned,
           email :=
             if !truthyB e.emailProvisioned then some (genEmail e) else e.email,
           accounts := e.accounts ++ neededSoftware (roleProfiles (deptKey e)) e.accounts }

/-- The tasks one Training run appends (week-1/week-2 module split, then
the two meetings). -/
def trainingNewTasks (e : Employee) : List TaskRec :=
  (((pendingModules e).take 4).map weekOneTask ++
    ((pendingModules e).drop 4).map weekTwoTask) ++
  (if !truthyB e.managerMeetingScheduled then [managerMeetingTask] else []) ++
  (if !truthyB e.teamIntroScheduled then [teamIntroTask] else [])

/-- Net effect of one Training run on the employee record. -/
def trainingApplyEmployee (e : Employee) : Employee :=
  { e with tasks := e.tasks ++ trainingNewTasks e,
           managerMeetingScheduled :=
             if !truthyB e.managerMeetingScheduled then some true
             else e.managerMeetingScheduled,
           teamIntroScheduled :=
             if !truthyB e.teamIntroScheduled then some true else e.teamIntroScheduled }

/-- `candidates[0]` of the Buddy agent: head of the top-3 slice of the
stably sorted scored pool. -/
def selectBuddy (pool : List Buddy) (department : String) : Option ScoredBuddy :=
  ((sortedCandidates pool department).take 3).head?

/-- The tasks one Buddy run appends. -/
def buddyNewTasks (e : Employee) : List TaskRec :=
  (if e.buddy.isSome then []
   else
     match selectBuddy buddyPool (buddyDept e) with
     | some b => [buddyIntroTask b]
     | none => []) ++
  (if !truthyB e.checkInsScheduled then checkIns.map checkInTask else [])

/-- Net effect of one Buddy run on the employee record. -/
def buddyApplyEmployee (e : Employee) : Employee :=
  { e with tasks := e.tasks ++ buddyNewTasks e,
           buddy :=
             if e.buddy.isSome then e.buddy
             else selectBuddy buddyPool (buddyDept e),
           checkInsScheduled :=
             if !truthyB e.checkInsScheduled then some true else e.checkInsScheduled }

/-- Modelled from the spec's selection rule, for comparison with the
implementation: the first candidate (in catalog order) whose score is
greater than or equal to every candidate's score. -/
def firstMax (l : List ScoredBuddy) : Option ScoredBuddy :=
  match l with
  | [] => none
  | a :: rest =>
    if rest.all (fun b => decide (b.score ≤ a.score)) then some a else firstMax rest

/-- All task ids an HR run can ever emit, in emission order. -/
def hrCatalogIds : List String :=
  (hrRequiredDocs.map (fun d => "hr-doc-" ++ d.id)) ++
  (hrPolicies.map (fun p => "hr-policy-" ++ p)) ++
  ["hr-benefits-enrollment"]

/-- All task ids an IT run can ever emit for a department key, in emission
order. -/
def itCatalogIds (department : String) : List String :=
  ["it-email-setup"] ++
  ((roleProfiles department).software.map (fun s => "it-sw-" ++ swSlug s)) ++
  ((roleProfiles department).hardware.map (fun h => "it-hw-" ++ hwSlug h)) ++
  ((roleProfiles department).access.map (fun a => "it-access-" ++ accessSlug a))

/-- All task ids a Training run can ever emit for a department key, in
emission order. -/
def trainingCatalogIds (department : String) : List String :=
  ((companyWideModules ++ roleModulesFor department).map (fun m => "training-" ++ m.id)) ++
  ["training-manager-1on1", "training-team-intro"]

/-- All task ids a Buddy run can ever emit, in emission order. -/
def buddyCatalogIds : List String :=
  ["buddy-intro-meeting"] ++ (checkIns.map (fun ci => "buddy-checkin-day" ++ toString ci.1))

/-- All task ids one `onboard` call can ever merge, for a department key. -/
def mergedCatalogIds (department : String) : List String :=
  hrCatalogIds ++ itCatalogIds department ++ trainingCatalogIds department ++ buddyCatalogIds

/-- The orchestrator's `agentNames` array, indexed. -/
def orchName (j : Fin 4) : String := ["hr", "it", "training", "buddy"].get j

/-- An onboarding input as the HTTP route's store produces it: the store
always materializes an `email` key (`data.email || null`), here with the
falsy value `""` standing for `null`. -/
def inputAna : Employee :=
  { firstName := "Ana", lastName := "Lopez", department := some "engineering",
    email := some "" }

/-- An employee whose every gap from the claim's list is already
satisfied (department outside the recognized set, so the `default`
profiles apply). -/
def empSatisfied : Employee :=
  { firstName := "Sam", lastName := "Reed", department := some "operations",
    documents := ["government_id", "tax_w4", "i9_form", "direct_deposit",
      "emergency_contact", "nda"],
    accounts := ["Slack", "Google Workspace", "Zoom"],
    hardware := ["Laptop", "External Monitor 24\""],
    policiesAcknowledged := ["code_of_conduct", "data_privacy", "remote_work",
      "anti_harassment"],
    completedTraining := ["company-overview", "security-awareness", "dei-training",
      "tools-intro"],
    buddy := some ⟨"b0", "Pat Low", "operations", "senior", 4, 4⟩,
    emailProvisioned := some true,
    benefitsEnrollmentStarted := some true,
    checkInsScheduled := some true,
    managerMeetingScheduled := some true,
    teamIntroScheduled := some true }

/-- A fully populated profile except for `startDate`. -/
def riskEmpNoDate : Employee :=
  { firstName := "Lee", lastName := "Park", department := some "engineering",
    role := some "engineer", location := some "NYC", manager := some "Kim",
    email := some "lee@company.com" }

/-- The same profile with a start date one day in the past added. -/
def riskEmpPastDate : Employee := { riskEmpNoDate with startDate := some (-1) }

/-- A task due in 0 days. -/
def taskDueZero : TaskRec :=
  { id := "t0", agent := "hr", type := "document_upload", title := "T0",
    status := "pending", priority := "high", dueInDays := some 0, category := "C" }

/-- The pool of the claim's scenario: one engineering member rated 4.9 and
one non-engineering member rated 5.0. -/
def scenarioPool : List Buddy :=
  [⟨"e1", "Eng Member", "engineering", "senior", 4.9⟩,
   ⟨"s1", "Star Member", "sales", "lead", 5.0⟩]

/-- An employee in the engineering department for the scenario. -/
def scenarioEmployee : Employee :=
  { firstName := "New", lastName := "Hire", department := some "engineering" }

/-- A candidate whose department is spelled with a capital letter. -/
def capCandidate : Buddy := ⟨"c1", "Casey Cap", "Engineering", "senior", 4⟩

/-- An employee whose department equals `capCandidate`'s department
case-insensitively (and even literally). -/
def capEmployee : Employee :=
  { firstName := "Cap", lastName := "Case", department := some "Engineering" }

/-- A trivial agent whose rules signal no actions, used to exercise the
generic loop. -/
def toySpec : AgentSpec Unit Unit where
  name := "Toy"
  perceive c := .ok (c, [])
  choose _ := .ok ([], [])
  act c _ := .ok (c, [])
  reflect c := .ok (c, true, [])

/-- A run function standing for an agent whose promise rejects. -/
def failingRun (msg : String) : Context → RunResult Context :=
  fun _ => ⟨.error, [], 1, .error msg⟩

/-- Context/log pair produced by one HR act phase on the perceived context. -/
def hrRunAux (c : Context) : Context × List LogEntry :=
  hrAct (hrPerceive c) (hrChoose (hrPerceive c))

/-- The log entries one fulfilled HR run appends after its `start` entry. -/
def hrRunLog (c : Context) : List LogEntry :=
  if (hrChoose (hrPerceive c)).isEmpty then
    [noActionsEntry hrName, completeEntry hrName]
  else
    (hrRunAux c).2 ++ (hrReflect (hrRunAux c).1).2.2 ++ [completeEntry hrName]

/-- The context one fulfilled HR run resolves with. -/
def hrRunCtx (c : Context) : Context :=
  if (hrChoose (hrPerceive c)).isEmpty then c else (hrRunAux c).1

/-- Context/log pair produced by one IT act phase on the perceived context. -/
def itRunAux (c : Context) : Context × List LogEntry :=
  itAct (itPerceive c) (itChoose (itPerceive c))

/-- The log entries one fulfilled IT run appends after its `start` entry. -/
def itRunLog (c : Context) : List LogEntry :=
  if (itChoose (itPerceive c)).isEmpty then
    [noActionsEntry itName, completeEntry itName]
  else
    (itRunAux c).2 ++ (itReflect (itRunAux c).1).2.2 ++ [completeEntry itName]

/-- The context one fulfilled IT run resolves with. -/
def itRunCtx (c : Context) : Context :=
  if (itChoose (itPerceive c)).isEmpty then c else (itRunAux c).1

/-- Context/log pair produced by one Training act phase. -/
def trainingRunAux (c : Context) : Context × List LogEntry :=
  trainingAct (trainingPerceive c) (trainingChoose (trainingPerceive c))

/-- The log entries one fulfilled Training run appends after its `start`
entry. -/
def trainingRunLog (c : Context) : List LogEntry :=
  if (trainingChoose (trainingPerceive c)).isEmpty then
    [noActionsEntry trainingName, completeEntry trainingName]
  else
    (trainingRunAux c).2 ++ (trainingReflect (trainingRunAux c).1).2.2 ++
      [completeEntry trainingName]

/-- The context one fulfilled Training run resolves with. -/
def trainingRunCtx (c : Context) : Context :=
  if (trainingChoose (trainingPerceive c)).isEmpty then c else (trainingRunAux c).1

/-- Context/log pair produced by one Buddy act phase. -/
def buddyRunAux (c : Context) : Context × List LogEntry :=
  buddyAct (buddyPerceiveWith buddyPool c) (buddyChoose (buddyPerceiveWith buddyPool c))

/-- The log entries one fulfilled Buddy run appends after its `start` entry. -/
def buddyRunLog (c : Context) : List LogEntry :=
  if (buddyChoose (buddyPerceiveWith buddyPool c)).isEmpty then
    [noActionsEntry buddyName, completeEntry buddyName]
  else
    (buddyRunAux c).2 ++ (buddyReflect (buddyRunAux c).1).2.2 ++ [completeEntry buddyName]

/-- The context one fulfilled Buddy run resolves with. -/
def buddyRunCtx (c : Context) : Context :=
  if (buddyChoose (buddyPerceiveWith buddyPool c)).isEmpty then c else (buddyRunAux c).1

/-- Overlay of the employees of the fulfilled agents (every position except
`i`) onto `base`, in the fixed agent order. -/
def overlaySkip (i : Fin 4) (base : Employee) (es : Fin 4 → Employee) : Employee :=
  (([0, 1, 2, 3] : List (Fin 4)).filter (fun j => j != i)).foldl
    (fun acc j => overlayEmployee acc (es j)) base

theorem lastConcat {α : Type} (l : List α) (x : α) : (l ++ [x]).getLast? = some x :=
  List.getLast?_concat l

theorem runLoop_log_shift {Ctx Action : Type} (A : AgentSpec Ctx Action) :
    ∀ (fuel : Nat) (c : Ctx) (pre log : List LogEntry) (iters : Nat),
      runLoop A fuel c (pre ++ log) iters =
        { runLoop A fuel c log iters with
            log := pre ++ (runLoop A fuel c log iters).log } := by
  intro fuel
  induction fuel with
  | zero =>
    intro c pre log iters
    simp [runLoop]
  | succ n ih =>
    intro c pre log iters
    simp only [runLoop]
    cases hp : A.perceive c with
    | error e => simp [hp]
    | ok pl =>
      obtain ⟨pctx, plog⟩ := pl
      cases hd : A.choose pctx with
      | error e => simp [hp, hd]
      | ok al =>
        obtain ⟨actions, dlog⟩ := al
        by_cases hemp : actions.isEmpty
        · simp [hp, hd, hemp]
        · cases ha : A.act pctx actions with
          | error e => simp [hp, hd, hemp, ha]
          | ok cl =>
            obtain ⟨actx, alog⟩ := cl
            cases hrf : A.reflect actx with
            | error e => simp [hp, hd, hemp, ha, hrf]
            | ok rl =>
              obtain ⟨rctx, complete, rlog⟩ := rl
              by_cases hc : complete
              · simp [hp, hd, hemp, ha, hrf, hc]
              · simp only [hp, hd, hemp, ha, hrf, hc, Bool.false_eq_true, if_false]
                rw [show (pre ++ log) ++ plog ++ dlog ++ alog ++ rlog =
                      pre ++ (log ++ plog ++ dlog ++ alog ++ rlog) by simp]
                exact ih rctx pre (log ++ plog ++ dlog ++ alog ++ rlog) (iters + 1)

theorem runLoop_iterations_le {Ctx Action : Type} (A : AgentSpec Ctx Action) :
    ∀ (fuel : Nat) (c : Ctx) (log : List LogEntry) (iters : Nat),
      (runLoop A fuel c log iters).iterations ≤ iters + fuel := by
  intro fuel
  induction fuel with
  | zero =>
    intro c log iters
    simp [runLoop]
  | succ n ih =>
    intro c log iters
    simp only [runLoop]
    cases hp : A.perceive c with
    | error e => simp [hp]
    | ok pl =>
      obtain ⟨pctx, plog⟩ := pl
      cases hd : A.choose pctx with
      | error e => simp [hp, hd]
      | ok al =>
        obtain ⟨actions, dlog⟩ := al
        by_cases hemp : actions.isEmpty
        · simp [hp, hd, hemp]
        · cases ha : A.act pctx actions with
          | error e => simp [hp, hd, hemp, ha]
          | ok cl =>
            obtain ⟨actx, alog⟩ := cl
            cases hrf : A.reflect actx with
            | error e => simp [hp, hd, hemp, ha, hrf]
            | ok rl =>
              obtain ⟨rctx, complete, rlog⟩ := rl
              by_cases hc : complete
              · simp [hp, hd, hemp, ha, hrf, hc]
              · simp only [hp, hd, hemp, ha, hrf, hc, Bool.false_eq_true, if_false]
                calc (runLoop A n rctx _ (iters + 1)).iterations ≤ (iters + 1) + n :=
                      ih rctx _ (iters + 1)
                  _ ≤ iters + (n + 1) := by omega

theorem runLoop_error_char {Ctx Action : Type} (A : AgentSpec Ctx Action) :
    ∀ (fuel : Nat) (c : Ctx) (log : List LogEntry) (iters : Nat) (e : String),
      (runLoop A fuel c log iters).outcome = .error e →
        (runLoop A fuel c log iters).status = .error ∧
        (runLoop A fuel c log iters).log.getLast? = some (errorEntry A.name e) := by
  intro fuel
  induction fuel with
  | zero =>
    intro c log iters e h
    simp [runLoop] at h
  | succ n ih =>
    intro c log iters e h
    simp only [runLoop] at h ⊢
    cases hp : A.perceive c with
    | error e2 =>
      simp only [hp] at h ⊢
      simp at h
      subst h
      exact ⟨by simp, lastConcat _ _⟩
    | ok pl =>
      obtain ⟨pctx, plog⟩ := pl
      simp only [hp] at h ⊢
      cases hd : A.choose pctx with
      | error e2 =>
        simp only [hd] at h ⊢
        simp at h
        subst h
        exact ⟨by simp, lastConcat _ _⟩
      | ok al =>
        obtain ⟨actions, dlog⟩ := al
        simp only [hd] at h ⊢
        by_cases hemp : actions.isEmpty
        · simp [hemp] at h
        · simp only [hemp, Bool.false_eq_true, if_false] at h ⊢
          cases ha : A.act pctx actions with
          | error e2 =>
            simp only [ha] at h ⊢
            simp at h
            subst h
            exact ⟨by simp, lastConcat _ _⟩
          | ok cl =>
            obtain ⟨actx, alog⟩ := cl
            simp only [ha] at h ⊢
            cases hrf : A.reflect actx with
            | error e2 =>
              simp only [hrf] at h ⊢
              simp at h
              subst h
              exact ⟨by simp, lastConcat _ _⟩
            | ok rl =>
              obtain ⟨rctx, complete, rlog⟩ := rl
              simp only [hrf] at h ⊢
              by_cases hc : complete
              · simp [hc] at h
              · simp only [hc, Bool.false_eq_true, if_false] at h ⊢
                exact ih rctx _ (iters + 1) e h

theorem hr_run_eq (l : List LogEntry) (c : Context) :
    runAgent hrSpec l c =
      ⟨.completed, (l ++ [startEntry hrName]) ++ hrRunLog c, 1, .ok (hrRunCtx c)⟩ := by
  by_cases hA : (hrChoose (hrPerceive c)).isEmpty
  · simp [runAgent, MAX_ITERATIONS, runLoop, hrSpec, hrRunLog, hrRunCtx, hrRunAux, hA]
  · simp [runAgent, MAX_ITERATIONS, runLoop, hrSpec, hrRunLog, hrRunCtx, hrRunAux, hA,
      hrReflect]

theorem hrRunCtx_employee (c : Context) :
    (hrRunCtx c).employee = hrApplyEmployee c.employee := by
  cases hM : hrMissingDocs c.employee with
  | nil =>
    cases hP : hrPendingPolicies c.employee with
    | nil =>
      cases hB : truthyB c.employee.benefitsEnrollmentStarted with
      | false =>
        simp [hrRunCtx, hrRunAux, hrChoose, hrPerceive, hrAct, hrActStep, pushTasks,
          hrApplyEmployee, hrNewTasks, hM, hP, hB]
      | true =>
        simp [hrRunCtx, hrRunAux, hrChoose, hrPerceive, hrAct, hrActStep, pushTasks,
          hrApplyEmployee, hrNewTasks, hM, hP, hB]
    | cons p ps =>
      cases hB : truthyB c.employee.benefitsEnrollmentStarted with
      | false =>
        simp [hrRunCtx, hrRunAux, hrChoose, hrPerceive, hrAct, hrActStep, pushTasks,
          hrApplyEmployee, hrNewTasks, hM, hP, hB]
      | true =>
        simp [hrRunCtx, hrRunAux, hrChoose, hrPerceive, hrAct, hrActStep, pushTasks,
          hrApplyEmployee, hrNewTasks, hM, hP, hB]
  | cons d ds =>
    cases hP : hrPendingPolicies c.employee with
    | nil =>
      cases hB : truthyB c.employee.benefitsEnrollmentStarted with
      | false =>
        simp [hrRunCtx, hrRunAux, hrChoose, hrPerceive, hrAct, hrActStep, pushTasks,
          hrApplyEmployee, hrNewTasks, hM, hP, hB]
      | true =>
        simp [hrRunCtx, hrRunAux, hrChoose, hrPerceive, hrAct, hrActStep, pushTasks,
          hrApplyEmployee, hrNewTasks, hM, hP, hB]
    | cons p ps =>
      cases hB : truthyB c.employee.benefitsEnrollmentStarted with
      | false =>
        simp [hrRunCtx, hrRunAux, hrChoose, hrPerceive, hrAct, hrActStep, pushTasks,
          hrApplyEmployee, hrNewTasks, hM, hP, hB]
      | true =>
        simp [hrRunCtx, hrRunAux, hrChoose, hrPerceive, hrAct, hrActStep, pushTasks,
          hrApplyEmployee, hrNewTasks, hM, hP, hB]

theorem it_run_eq (l : List LogEntry) (c : Context) :
    runAgent itSpec l c =
      ⟨.completed, (l ++ [startEntry itName]) ++ itRunLog c, 1, .ok (itRunCtx c)⟩ := by
  by_cases hA : (itChoose (itPerceive c)).isEmpty
  · simp [runAgent, MAX_ITERATIONS, runLoop, itSpec, itRunLog, itRunCtx, itRunAux, hA]
  · simp [runAgent, MAX_ITERATIONS, runLoop, itSpec, itRunLog, itRunCtx, itRunAux, hA,
      itReflect]

theorem itRunCtx_employee (c : Context) :
    (itRunCtx c).employee = itApplyEmployee c.employee := by
  cases hE : truthyB c.employee.emailProvisioned <;>
    cases hS : neededSoftware (roleProfiles (deptKey c.employee)) c.employee.accounts <;>
      cases hH : neededHardware (roleProfiles (deptKey c.employee)) c.employee.hardware <;>
        simp [itRunCtx, itRunAux, itChoose, itPerceive, itAct, itActStep, pushTasks,
          itApplyEmployee, itNewTasks, hE, hS, hH]

theorem training_run_eq (l : List LogEntry) (c : Context) :
    runAgent trainingSpec l c =
      ⟨.completed, (l ++ [startEntry trainingName]) ++ trainingRunLog c, 1,
        .ok (trainingRunCtx c)⟩ := by
  by_cases hA : (trainingChoose (trainingPerceive c)).isEmpty
  · simp [runAgent, MAX_ITERATIONS, runLoop, trainingSpec, trainingRunLog, trainingRunCtx,
      trainingRunAux, hA]
  · simp [runAgent, MAX_ITERATIONS, runLoop, trainingSpec, trainingRunLog, trainingRunCtx,
      trainingRunAux, hA, trainingReflect]

theorem trainingRunCtx_employee (c : Context) :
    (trainingRunCtx c).employee = trainingApplyEmployee c.employee := by
  cases hPM : pendingModules c.employee <;>
    cases hMM : truthyB c.employee.managerMeetingScheduled <;>
      cases hTI : truthyB c.employee.teamIntroScheduled <;>
        simp [trainingRunCtx, trainingRunAux, trainingChoose, trainingPerceive,
          trainingAct, trainingActStep, pushTasks, trainingApplyEmployee,
          trainingNewTasks, hPM, hMM, hTI]

theorem buddy_run_eq (l : List LogEntry) (c : Context) :
    runAgent buddySpec l c =
      ⟨.completed, (l ++ [startEntry buddyName]) ++ buddyRunLog c, 1,
        .ok (buddyRunCtx c)⟩ := by
  by_cases hA : (buddyChoose (buddyPerceiveWith buddyPool c)).isEmpty
  · simp [runAgent, MAX_ITERATIONS, runLoop, buddySpec, buddyRunLog, buddyRunCtx,
      buddyRunAux, hA]
  · simp [runAgent, MAX_ITERATIONS, runLoop, buddySpec, buddyRunLog, buddyRunCtx,
      buddyRunAux, hA, buddyReflect]

theorem buddyRunCtx_employee (c : Context) :
    (buddyRunCtx c).employee = buddyApplyEmployee c.employee := by
  cases hBu : c.employee.buddy <;>
    cases hCk : truthyB c.employee.checkInsScheduled <;>
      cases hTk : (sortedCandidates buddyPool (buddyDept c.employee)).take 3 <;>
        simp [buddyRunCtx, buddyRunAux, buddyChoose, buddyPerceiveWith, buddyAct,
          buddyActStep, pushTasks, buddyApplyEmployee, buddyNewTasks, selectBuddy,
          hBu, hCk, hTk] <;>
        rw [← hBu]

/-- C9: for every agent and context, `BaseAgent.run` executes at most 5
perceive/decide/act/reflect iterations (and, being fuel-bounded, always
terminates); if decide returns no intents the loop logs a `no-actions`
entry and completes without calling act (the result is independent of the
act phase and the context is returned unchanged); and if any phase throws,
the agent ends in the `error` state with an `error` log entry appended last
carrying the detail, and the error is rethrown as the run's outcome. -/
theorem c9_run_loop_bounded {Ctx Action : Type} (A : AgentSpec Ctx Action)
    (l : List LogEntry) (c : Ctx) :
    (runAgent A l c).iterations ≤ MAX_ITERATIONS ∧
    (∀ pctx plog dlog, A.perceive c = .ok (pctx, plog) → A.choose pctx = .ok ([], dlog) →
      runAgent A l c =
        ⟨.completed, (l ++ [startEntry A.name]) ++ plog ++ dlog ++
          [noActionsEntry A.name, completeEntry A.name], 1, .ok c⟩ ∧
      ∀ act2, runAgent { A with act := act2 } l c = runAgent A l c) ∧
    (∀ e, A.perceive c = .error e →
      runAgent A l c =
        ⟨.error, (l ++ [startEntry A.name]) ++ [errorEntry A.name e], 1, .error e⟩) ∧
    (∀ e pctx plog, A.perceive c = .ok (pctx, plog) → A.choose pctx = .error e →
      runAgent A l c =
        ⟨.error, (l ++ [startEntry A.name]) ++ plog ++ [errorEntry A.name e], 1,
          .error e⟩) ∧
    (∀ e pctx plog actions dlog, A.perceive c = .ok (pctx, plog) →
      A.choose pctx = .ok (actions, dlog) → actions ≠ [] →
      A.act pctx actions = .error e →
      runAgent A l c =
        ⟨.error, (l ++ [startEntry A.name]) ++ plog ++ dlog ++ [errorEntry A.name e], 1,
          .error e⟩) ∧
    (∀ e pctx plog actions dlog actx alog, A.perceive c = .ok (pctx, plog) →
      A.choose pctx = .ok (actions, dlog) → actions ≠ [] →
      A.act pctx actions = .ok (actx, alog) → A.reflect actx = .error e →
      runAgent A l c =
        ⟨.error, (l ++ [startEntry A.name]) ++ plog ++ dlog ++ alog ++
          [errorEntry A.name e], 1, .error e⟩) ∧
    (∀ e, (runAgent A l c).outcome = .error e →
      (runAgent A l c).status = .error ∧
      (runAgent A l c).log.getLast? = some (errorEntry A.name e)) := by
  refine ⟨?_, ?_, ?_, ?_, ?_, ?_, ?_⟩
  · simpa using runLoop_iterations_le A MAX_ITERATIONS c (l ++ [startEntry A.name]) 0
  · intro pctx plog dlog hp hd
    constructor
    · simp [runAgent, MAX_ITERATIONS, runLoop, hp, hd]
    · intro act2
      simp [runAgent, MAX_ITERATIONS, runLoop, hp, hd]
  · intro e hp
    simp [runAgent, MAX_ITERATIONS, runLoop, hp]
  · intro e pctx plog hp hd
    simp [runAgent, MAX_ITERATIONS, runLoop, hp, hd]
  · intro e pctx plog actions dlog hp hd hne ha
    have hemp : actions.isEmpty = false := by
      cases actions with
      | nil => exact absurd rfl hne
      | cons a as => rfl
    simp [runAgent, MAX_ITERATIONS, runLoop, hp, hd, hemp, ha]
  · intro e pctx plog actions dlog actx alog hp hd hne ha hrf
    have hemp : actions.isEmpty = false := by
      cases actions with
      | nil => exact absurd rfl hne
      | cons a as => rfl
    simp [runAgent, MAX_ITERATIONS, runLoop, hp, hd, hemp, ha, hrf]
  · intro e h
    exact runLoop_error_char A MAX_ITERATIONS c (l ++ [startEntry A.name]) 0 e h

/-- Witness for C9 at a concrete agent with no intents. -/
theorem c9_run_loop_bounded_witness :
    (runAgent toySpec [] ()).iterations ≤ MAX_ITERATIONS ∧
    runAgent toySpec [] () =
      ⟨.completed, [startEntry "Toy", noActionsEntry "Toy", completeEntry "Toy"], 1,
        .ok ()⟩ := by
  refine ⟨(c9_run_loop_bounded toySpec [] ()).1, ?_⟩
  have h := ((c9_run_loop_bounded toySpec [] ()).2.1 () [] [] rfl rfl).1
  simpa [toySpec] using h

/-- C1: whenever all four agent runs fulfil, the merged task sequence on the
returned employee record is exactly HR-tasks ++ IT-tasks ++ Training-tasks ++
Buddy-tasks, each sublist being that agent's returned task list in its
emission order.  The embedding consumes the all-settled results positionally,
as `Promise.allSettled` does, so the merge is independent of promise
resolution order. -/
theorem c1_merge_order (fhr fit ftraining fbuddy : Context → RunResult Context)
    (input : Employee) (chr cit ctraining cbuddy : Context)
    (h1 : (fhr (copyFor { employee := initEmployee input })).outcome = .ok chr)
    (h2 : (fit (copyFor { employee := initEmployee input })).outcome = .ok cit)
    (h3 : (ftraining (copyFor { employee := initEmployee input })).outcome = .ok ctraining)
    (h4 : (fbuddy (copyFor { employee := initEmployee input })).outcome = .ok cbuddy) :
    (onboard fhr fit ftraining fbuddy input).employee.tasks =
      chr.employee.tasks ++ cit.employee.tasks ++ ctraining.employee.tasks ++
        cbuddy.employee.tasks := by
  simp [onboard, onboardCore, mergeStep, h1, h2, h3, h4]

/-- Witness for C1 with the four concrete agents on a concrete input. -/
theorem c1_merge_order_witness :
    (onboard (fun c => runAgent hrSpec [] c) (fun c => runAgent itSpec [] c)
        (fun c => runAgent trainingSpec [] c) (fun c => runAgent buddySpec [] c)
        inputAna).employee.tasks =
      (hrRunCtx (copyFor { employee := initEmployee inputAna })).employee.tasks ++
      (itRunCtx (copyFor { employee := initEmployee inputAna })).employee.tasks ++
      (trainingRunCtx (copyFor { employee := initEmployee inputAna })).employee.tasks ++
      (buddyRunCtx (copyFor { employee := initEmployee inputAna })).employee.tasks :=
  c1_merge_order _ _ _ _ inputAna _ _ _ _
    (by simp [hr_run_eq]) (by simp [it_run_eq]) (by simp [training_run_eq])
    (by simp [buddy_run_eq])


/-- C2: if exactly one of the four agent runs rejects with message `msg`
while the other three fulfil, `onboard` still resolves with a complete plan
(all four `agentLogs` and `agentSummaries` entries present) in which the
failed agent's `agentLogs` entry is exactly one synthetic log entry with
action `error` and detail `msg`, the failed agent contributes no tasks and
no employee-field overlay, and the other three agents' tasks all appear in
the merged employee record in the fixed agent order. -/
theorem c2_failure_isolation (fhr fit ftraining fbuddy : Context → RunResult Context)
    (input : Employee) (i : Fin 4) (msg : String) (cs : Fin 4 → Context)
    (hhr : (fhr (copyFor { employee := initEmployee input })).outcome =
      if (0 : Fin 4) = i then .error msg else .ok (cs 0))
    (hit : (fit (copyFor { employee := initEmployee input })).outcome =
      if (1 : Fin 4) = i then .error msg else .ok (cs 1))
    (htr : (ftraining (copyFor { employee := initEmployee input })).outcome =
      if (2 : Fin 4) = i then .error msg else .ok (cs 2))
    (hbd : (fbuddy (copyFor { employee := initEmployee input })).outcome =
      if (3 : Fin 4) = i then .error msg else .ok (cs 3)) :
    (onboard fhr fit ftraining fbuddy input).agentLogs =
      [("hr", if (0 : Fin 4) = i then [⟨"hr", "error", msg⟩]
              else (fhr (copyFor { employee := initEmployee input })).log),
       ("it", if (1 : Fin 4) = i then [⟨"it", "error", msg⟩]
              else (fit (copyFor { employee := initEmployee input })).log),
       ("training", if (2 : Fin 4) = i then [⟨"training", "error", msg⟩]
              else (ftraining (copyFor { employee := initEmployee input })).log),
       ("buddy", if (3 : Fin 4) = i then [⟨"buddy", "error", msg⟩]
              else (fbuddy (copyFor { employee := initEmployee input })).log)] ∧
    (onboard fhr fit ftraining fbuddy input).employee.tasks =
      (if (0 : Fin 4) = i then [] else (cs 0).employee.tasks) ++
      (if (1 : Fin 4) = i then [] else (cs 1).employee.tasks) ++
      (if (2 : Fin 4) = i then [] else (cs 2).employee.tasks) ++
      (if (3 : Fin 4) = i then [] else (cs 3).employee.tasks) ∧
    (onboard fhr fit ftraining fbuddy input).employee =
      { overlaySkip i (initEmployee input) (fun j => (cs j).employee) with
          tasks := (onboard fhr fit ftraining fbuddy input).employee.tasks } ∧
    (onboard fhr fit ftraining fbuddy input).agentLogs.length = 4 ∧
    (onboard fhr fit ftraining fbuddy input).summary.agentSummaries.length = 4 := by
  fin_cases i <;>
    simp +decide [Fin.ext_iff] at hhr hit htr hbd <;>
    simp +decide [onboard, onboardCore, mergeStep, buildSummary, overlaySkip,
      hhr, hit, htr, hbd, Fin.ext_iff]

/-- Witness for C2: the IT slot rejects with "boom", the other three
concrete agents fulfil. -/
theorem c2_failure_isolation_witness :
    (onboard (fun c => runAgent hrSpec [] c) (failingRun "boom")
        (fun c => runAgent trainingSpec [] c) (fun c => runAgent buddySpec [] c)
        inputAna).agentLogs.length = 4 ∧
    (onboard (fun c => runAgent hrSpec [] c) (failingRun "boom")
        (fun c => runAgent trainingSpec [] c) (fun c => runAgent buddySpec [] c)
        inputAna).agentLogs[1]? = some ("it", [⟨"it", "error", "boom"⟩]) := by
  have H := c2_failure_isolation (fun c => runAgent hrSpec [] c) (failingRun "boom")
    (fun c => runAgent trainingSpec [] c) (fun c => runAgent buddySpec [] c) inputAna
    1 "boom"
    (fun j => if j = 2 then trainingRunCtx (copyFor { employee := initEmployee inputAna })
              else if j = 3 then buddyRunCtx (copyFor { employee := initEmployee inputAna })
              else hrRunCtx (copyFor { employee := initEmployee inputAna }))
    (by simp +decide [hr_run_eq]) (by simp [failingRun])
    (by simp +decide [training_run_eq]) (by simp +decide [buddy_run_eq])
  refine ⟨H.2.2.2.1, ?_⟩
  rw [H.1]
  simp +decide [Fin.ext_iff]

theorem buildTimeline_apply :
    ∀ (tasks : List TaskRec) (f : String → List TimelineItem) (b : String),
      (tasks.foldl (fun tl task => fun x =>
        if x = bucketOf task.dueInDays then tl x ++ [timelineItem task] else tl x) f) b =
      f b ++ (tasks.filter (fun t => bucketOf t.dueInDays == b)).map timelineItem := by
  intro tasks
  induction tasks with
  | nil => intro f b; simp
  | cons t ts ih =>
    intro f b
    simp only [List.foldl]
    rw [ih]
    by_cases h : b = bucketOf t.dueInDays
    · have h2 : (bucketOf t.dueInDays == b) = true := by simp [h]
      simp [h, h2]
    · have h2 : (bucketOf t.dueInDays == b) = false := by
        simp
        exact fun hh => h hh.symm
      simp [h, h2]

/-- C3 (amended): `buildTimeline` groups each task into the single bucket
determined by `bucketOf` of its `dueInDays`, keeping input order within a
bucket (each bucket equals the order-preserving filter of the input), and
the buckets partition the `dueInDays` range as follows — absent OR `0`
gives `Immediate` (the source's truthiness test sends `0` to `Immediate`),
1–3 `Day 1-3`, 4–7 `Week 1`, 8–14 `Week 2`, 15–30 `Month 1`, and above 30
`Month 2-3` — with inclusive upper boundaries. -/
theorem c3_timeline_partition :
    (∀ tasks b, buildTimeline tasks b =
      (tasks.filter (fun t => bucketOf t.dueInDays == b)).map timelineItem) ∧
    bucketOf none = "Immediate" ∧
    bucketOf (some 0) = "Immediate" ∧
    (∀ n : Nat, 1 ≤ n → n ≤ 3 → bucketOf (some n) = "Day 1-3") ∧
    (∀ n : Nat, 4 ≤ n → n ≤ 7 → bucketOf (some n) = "Week 1") ∧
    (∀ n : Nat, 8 ≤ n → n ≤ 14 → bucketOf (some n) = "Week 2") ∧
    (∀ n : Nat, 15 ≤ n → n ≤ 30 → bucketOf (some n) = "Month 1") ∧
    (∀ n : Nat, 31 ≤ n → bucketOf (some n) = "Month 2-3") := by
  refine ⟨?_, rfl, rfl, ?_, ?_, ?_, ?_, ?_⟩
  · intro tasks b
    have h := buildTimeline_apply tasks (fun _ => []) b
    simpa [buildTimeline] using h
  · intro n h1 h2
    simp only [bucketOf]
    split_ifs <;> first | rfl | omega
  · intro n h1 h2
    simp only [bucketOf]
    split_ifs <;> first | rfl | omega
  · intro n h1 h2
    simp only [bucketOf]
    split_ifs <;> first | rfl | omega
  · intro n h1 h2
    simp only [bucketOf]
    split_ifs <;> first | rfl | omega
  · intro n h1
    simp only [bucketOf]
    split_ifs <;> first | rfl | omega

/-- C3 counterexample: a task with `dueInDays = 0` lands in the `Immediate`
bucket, not in `Day 1-3` as the claim's "dueInDays ≤ 3 (including 0) goes
to Day 1-3" states — the source tests `task.dueInDays ?`, and `0` is falsy. -/
theorem c3_timeline_counterexample :
    bucketOf (some 0) = "Immediate" ∧ bucketOf (some 0) ≠ "Day 1-3" ∧
    buildTimeline [taskDueZero] "Day 1-3" = [] ∧
    buildTimeline [taskDueZero] "Immediate" = [timelineItem taskDueZero] := by
  refine ⟨by decide, by decide, by decide, by decide⟩

/-- Witness for C3's amended theorem at concrete inputs. -/
theorem c3_timeline_partition_witness :
    buildTimeline [taskDueZero] "Immediate" =
      ([taskDueZero].filter (fun t => bucketOf t.dueInDays == "Immediate")).map
        timelineItem ∧
    bucketOf (some 2) = "Day 1-3" ∧ bucketOf (some 5) = "Week 1" ∧
    bucketOf (some 10) = "Week 2" ∧ bucketOf (some 20) = "Month 1" ∧
    bucketOf (some 40) = "Month 2-3" :=
  ⟨c3_timeline_partition.1 [taskDueZero] "Immediate",
   c3_timeline_partition.2.2.2.1 2 (by decide) (by decide),
   c3_timeline_partition.2.2.2.2.1 5 (by decide) (by decide),
   c3_timeline_partition.2.2.2.2.2.1 10 (by decide) (by decide),
   c3_timeline_partition.2.2.2.2.2.2.1 20 (by decide) (by decide),
   c3_timeline_partition.2.2.2.2.2.2.2 40 (by decide)⟩

theorem riskRank_mono (s1 s2 : Nat) (h : s1 ≤ s2) :
    riskRank (riskLevelOfScore s1) ≤ riskRank (riskLevelOfScore s2) := by
  unfold riskLevelOfScore
  split_ifs <;> simp [riskRank] <;> omega

/-- C5 (amended): adding a value for any one missing field among the five
fixed-penalty required fields (email, role, department, manager, location)
never increases the risk score, and hence never raises the risk level.
The claim's further inclusion of `startDate` in this list is refuted by
`c5_risk_counterexample`: a newly added start date can raise the penalty. -/
theorem c5_risk_monotonicity (e : Employee) (f : ReqField) (v : String)
    (hmiss : ¬ truthyS (getReq e f)) (hv : v ≠ "") :
    riskScore (setReq e f v) ≤ riskScore e ∧
    riskRank (classifyRisk (setReq e f v)) ≤ riskRank (classifyRisk e) := by
  have hv2 : truthyS (some v) = true := by
    simp only [truthyS, Option.getD_some, Bool.not_eq_true']
    rw [Bool.eq_false_iff]
    intro hh
    exact hv ((String.isEmpty_iff v).mp hh)
  have hm : truthyS (getReq e f) = false := by
    cases hb : truthyS (getReq e f)
    · rfl
    · exact absurd hb hmiss
  have hscore : riskScore (setReq e f v) ≤ riskScore e := by
    cases f <;>
      simp only [getReq] at hm <;>
      simp [setReq, riskScore, hv2, hm]
  exact ⟨hscore, riskRank_mono _ _ hscore⟩

/-- C5 counterexample: adding a value for the missing `startDate` — one of
the claim's listed required fields — increases the risk score from 1 to 3
and raises the risk level from `low` to `medium` when the added start date
lies in the past (`leadDays < 0` draws +3 whereas an absent date draws +1). -/
theorem c5_risk_counterexample :
    riskEmpPastDate = { riskEmpNoDate with startDate := some (-1) } ∧
    riskScore riskEmpNoDate = 1 ∧ riskScore riskEmpPastDate = 3 ∧
    classifyRisk riskEmpNoDate = "low" ∧ classifyRisk riskEmpPastDate = "medium" :=
  ⟨rfl, by decide, by decide, by decide, by decide⟩

/-- Witness for C5's amended theorem: adding an email to a profile missing
only the email. -/
theorem c5_risk_monotonicity_witness :
    ¬ truthyS (getReq { riskEmpNoDate with email := none } ReqField.email) ∧
    riskScore (setReq { riskEmpNoDate with email := none } ReqField.email "a@b.c") ≤
      riskScore { riskEmpNoDate with email := none } :=
  ⟨by decide,
   (c5_risk_monotonicity { riskEmpNoDate with email := none } ReqField.email "a@b.c"
      (by decide) (by decide)).1⟩

theorem buddyLE_trans : ∀ (a b c : ScoredBuddy),
    buddyLE a b → buddyLE b c → buddyLE a c := by
  intro a b c hab hbc
  simp only [buddyLE, decide_eq_true_eq] at *
  exact le_trans hbc hab

theorem buddyLE_total : ∀ (a b : ScoredBuddy), buddyLE a b || buddyLE b a := by
  intro a b
  simp only [buddyLE, Bool.or_eq_true, decide_eq_true_eq]
  exact le_total b.score a.score

theorem head?_take {α : Type} (l : List α) (n : Nat) :
    (l.take (n + 1)).head? = l.head? := by
  cases l <;> simp

theorem head?_mergeSort_firstMax :
    ∀ l : List ScoredBuddy, (l.mergeSort buddyLE).head? = firstMax l := by
  intro l
  induction l with
  | nil => simp [firstMax]
  | cons a rest ih =>
    obtain ⟨l₁, l₂, h1, h2, h3⟩ := List.mergeSort_cons buddyLE_trans buddyLE_total a rest
    cases hl : l₁ with
    | nil =>
      subst hl
      rw [h1]
      have hsorted := List.sorted_mergeSort buddyLE_trans buddyLE_total (a :: rest)
      rw [h1] at hsorted
      have hperm : List.Perm l₂ rest := by
        have hp := List.mergeSort_perm rest buddyLE
        rw [h2] at hp
        simpa using hp
      have hall : rest.all (fun b => decide (b.score ≤ a.score)) = true := by
        rw [List.all_eq_true]
        intro b hb
        have hb2 : b ∈ l₂ := hperm.mem_iff.mpr hb
        simp only [List.nil_append] at hsorted
        have hab := (List.pairwise_cons.mp hsorted).1 b hb2
        simpa [buddyLE] using hab
      simp [firstMax, hall]
    | cons c l₁' =>
      subst hl
      rw [h1]
      have hms : rest.mergeSort buddyLE = c :: (l₁' ++ l₂) := by simpa using h2
      have hihc : firstMax rest = some c := by
        rw [← ih, hms]
        rfl
      have hcrest : c ∈ rest := by
        have hmem : c ∈ rest.mergeSort buddyLE := by
          rw [hms]
          exact List.mem_cons_self c _
        exact List.mem_mergeSort.mp hmem
      have hgt : ¬ (c.score ≤ a.score) := by
        have hc := h3 c (List.mem_cons_self c l₁')
        simpa [buddyLE] using hc
      have hallfalse : (rest.all (fun b => decide (b.score ≤ a.score))) = false := by
        rw [List.all_eq_false]
        exact ⟨c, hcrest, by simpa using hgt⟩
      simp [firstMax, hallfalse, hihc]

/-- C6 (amended): the Buddy agent scores each candidate as base rating plus
3 exactly when the candidate's department as stored equals the lowercased
employee department (the comparison lowercases only the employee side; for
the embedded all-lowercase pool this is case-insensitive in the employee's
department, but not in the candidate's, see `c6_buddy_counterexample`);
the selected candidate (`candidates[0]` of the stable descending sort) is
the first candidate in catalog order achieving the maximal score; and in
the claim's scenario — one engineering member rated 4.9, one non-engineering
member rated 5.0, employee department `engineering` — the 4.9 engineering
member is selected. -/
theorem c6_buddy_selection :
    (∀ (department : String) (b : Buddy),
      (scoreBuddy department b).score =
        b.rating + (if b.department = department then 3 else 0)) ∧
    (∀ (pool : List Buddy) (department : String),
      selectBuddy pool department = firstMax (pool.map (scoreBuddy department))) ∧
    selectBuddy scenarioPool (buddyDept scenarioEmployee) =
      some (scoreBuddy "engineering" ⟨"e1", "Eng Member", "engineering", "senior", 4.9⟩) ∧
    (selectBuddy scenarioPool (buddyDept scenarioEmployee)).map (·.rating) = some 4.9 ∧
    (selectBuddy scenarioPool (buddyDept scenarioEmployee)).map (·.department) =
      some "engineering" := by
  have hsel : ∀ (pool : List Buddy) (department : String),
      selectBuddy pool department = firstMax (pool.map (scoreBuddy department)) := by
    intro pool department
    unfold selectBuddy sortedCandidates
    rw [head?_take]
    exact head?_mergeSort_firstMax _
  have hd : buddyDept scenarioEmployee = "engineering" := by decide
  have hfm : firstMax (scenarioPool.map (scoreBuddy "engineering")) =
      some (scoreBuddy "engineering" ⟨"e1", "Eng Member", "engineering", "senior", 4.9⟩) := by
    simp only [scenarioPool, List.map_cons, List.map_nil, scoreBuddy, firstMax,
      List.all_cons, List.all_nil,
      if_pos (show ("engineering" : String) = "engineering" from rfl),
      if_neg (show ¬(("sales" : String) = "engineering") by decide)]
    norm_num
  refine ⟨fun d b => rfl, hsel, ?_, ?_, ?_⟩
  · rw [hsel, hd, hfm]
  · rw [hsel, hd, hfm]
    rfl
  · rw [hsel, hd, hfm]
    rfl

/-- C6 counterexample: the department bonus is not case-insensitive.  A
candidate whose stored department is `Engineering` receives no bonus even
when the employee's department is literally the same string `Engineering`,
because the code lowercases only the employee side before an exact
comparison. -/
theorem c6_buddy_counterexample :
    capEmployee.department = some capCandidate.department ∧
    buddyDept capEmployee = "engineering" ∧
    (scoreBuddy (buddyDept capEmployee) capCandidate).score = capCandidate.rating ∧
    (scoreBuddy (buddyDept capEmployee) capCandidate).score ≠
      capCandidate.rating + 3 := by
  have hd : buddyDept capEmployee = "engineering" := by decide
  refine ⟨rfl, hd, ?_, ?_⟩
  · rw [hd]
    simp [scoreBuddy, capCandidate]
  · rw [hd]
    simp [scoreBuddy, capCandidate]

theorem runAgent_log_shift {Ctx Action : Type} (A : AgentSpec Ctx Action)
    (l : List LogEntry) (c : Ctx) :
    runAgent A l c = { runAgent A [] c with log := l ++ (runAgent A [] c).log } := by
  show runLoop A MAX_ITERATIONS c (l ++ [startEntry A.name]) 0 = _
  exact runLoop_log_shift A MAX_ITERATIONS c l [startEntry A.name] 0

/-- C4 (amended): when an agent's gaps are all satisfied, an HR, Training
or Buddy run resolves with the context unchanged — zero new tasks; an IT
run with email provisioned and all profile software/hardware present still
re-emits its unconditional access-grant tasks (and only those), refuting
the claim's "zero new tasks" for IT (see `c4_idempotence_counterexample`);
and every agent run's outcome — hence every generated task id — is
independent of the accumulated instance log, so two runs against the same
input produce identical task ids. -/
theorem c4_idempotence :
    (∀ (l : List LogEntry) (c : Context),
      (∀ d ∈ hrRequiredDocs, c.employee.documents.contains d.id) →
      (∀ p ∈ hrPolicies, c.employee.policiesAcknowledged.contains p) →
      truthyB c.employee.benefitsEnrollmentStarted →
      (runAgent hrSpec l c).outcome = .ok c) ∧
    (∀ (l : List LogEntry) (c : Context),
      (∀ m ∈ companyWideModules ++ roleModulesFor (deptKey c.employee),
        c.employee.completedTraining.contains m.id) →
      truthyB c.employee.managerMeetingScheduled →
      truthyB c.employee.teamIntroScheduled →
      (runAgent trainingSpec l c).outcome = .ok c) ∧
    (∀ (l : List LogEntry) (c : Context),
      c.employee.buddy.isSome →
      truthyB c.employee.checkInsScheduled →
      (runAgent buddySpec l c).outcome = .ok c) ∧
    (∀ (l : List LogEntry) (c : Context),
      truthyB c.employee.emailProvisioned →
      (∀ s ∈ (roleProfiles (deptKey c.employee)).software,
        c.employee.accounts.contains s) →
      (∀ hw ∈ (roleProfiles (deptKey c.employee)).hardware,
        c.employee.hardware.contains hw) →
      ∃ c2, (runAgent itSpec l c).outcome = .ok c2 ∧
        c2.employee.tasks = c.employee.tasks ++
          ((roleProfiles (deptKey c.employee)).access.map itAccessTask)) ∧
    (∀ (Ctx Action : Type) (A : AgentSpec Ctx Action) (l1 l2 : List LogEntry) (c : Ctx),
      (runAgent A l1 c).outcome = (runAgent A l2 c).outcome) := by
  refine ⟨?_, ?_, ?_, ?_, ?_⟩
  · intro l c h1 h2 h3
    have hM : hrMissingDocs c.employee = [] := by
      rw [hrMissingDocs, List.filter_eq_nil_iff]
      intro d hd
      simpa using h1 d hd
    have hP : hrPendingPolicies c.employee = [] := by
      rw [hrPendingPolicies, List.filter_eq_nil_iff]
      intro p hp
      simpa using h2 p hp
    simp [runAgent, MAX_ITERATIONS, runLoop, hrSpec, hrChoose, hrPerceive, hM, hP, h3]
  · intro l c h1 h2 h3
    have hPM : pendingModules c.employee = [] := by
      rw [pendingModules, List.filter_eq_nil_iff]
      intro m hm
      simpa using h1 m hm
    simp [runAgent, MAX_ITERATIONS, runLoop, trainingSpec, trainingChoose,
      trainingPerceive, hPM, h2, h3]
  · intro l c h1 h2
    simp [runAgent, MAX_ITERATIONS, runLoop, buddySpec, buddyChoose,
      buddyPerceiveWith, h1, h2]
  · intro l c h1 h2 h3
    have hS : neededSoftware (roleProfiles (deptKey c.employee)) c.employee.accounts
        = [] := by
      rw [neededSoftware, List.filter_eq_nil_iff]
      intro s hs
      simpa using h2 s hs
    have hH : neededHardware (roleProfiles (deptKey c.employee)) c.employee.hardware
        = [] := by
      rw [neededHardware, List.filter_eq_nil_iff]
      intro hw hhw
      simpa using h3 hw hhw
    refine ⟨itRunCtx c, ?_, ?_⟩
    · rw [it_run_eq]
    · rw [itRunCtx_employee]
      simp [itApplyEmployee, itNewTasks, hS, hH, h1]
  · intro Ctx Action A l1 l2 c
    rw [runAgent_log_shift A l1 c, runAgent_log_shift A l2 c]

/-- C4 counterexample: against an employee whose every gap from the claim's
list is satisfied, the IT agent still adds two tasks — its unconditional
`configure_access` grants — so "running that agent adds zero new tasks"
fails for IT. -/
theorem c4_idempotence_counterexample :
    truthyB empSatisfied.emailProvisioned = true ∧
    (∀ s ∈ (roleProfiles (deptKey empSatisfied)).software,
      empSatisfied.accounts.contains s) ∧
    (∀ hw ∈ (roleProfiles (deptKey empSatisfied)).hardware,
      empSatisfied.hardware.contains hw) ∧
    ((runAgent itSpec [] { employee := empSatisfied }).outcome.map
      (fun c2 => c2.employee.tasks.map (·.id))) =
      .ok ["it-access-vpn", "it-access-company-intranet"] := by
  refine ⟨by decide, by decide, by decide, ?_⟩
  rw [it_run_eq]
  simp only [Except.map]
  rw [itRunCtx_employee]
  decide

/-- Witness for C4's amended theorem at a fully satisfied employee. -/
theorem c4_idempotence_witness :
    (runAgent hrSpec [] { employee := empSatisfied }).outcome =
      .ok { employee := empSatisfied } ∧
    (runAgent trainingSpec [] { employee := empSatisfied }).outcome =
      .ok { employee := empSatisfied } ∧
    (runAgent buddySpec [] { employee := empSatisfied }).outcome =
      .ok { employee := empSatisfied } ∧
    (runAgent hrSpec [⟨"x", "y", "z"⟩] { employee := empSatisfied }).outcome =
      (runAgent hrSpec [] { employee := empSatisfied }).outcome :=
  ⟨c4_idempotence.1 [] { employee := empSatisfied } (by decide) (by decide) (by decide),
   c4_idempotence.2.1 [] { employee := empSatisfied } (by decide) (by decide) (by decide),
   c4_idempotence.2.2.1 [] { employee := empSatisfied } (by decide) (by decide),
   c4_idempotence.2.2.2.2 Context HRAction hrSpec [⟨"x", "y", "z"⟩] []
     { employee := empSatisfied }⟩

/-- C10: each agent instance's log is created once and only appended to,
and the orchestrator reuses the same four agent instances across calls, so
for two successive `onboard` calls with identical input the second call's
`agentLogs` for every (always-fulfilled) agent consist of the first call's
entries followed again by the same new entries — hence the two calls return
different `agentLogs` and different per-agent `totalActions` counts. -/
theorem c10_state_leak (input : Employee) :
    ∃ A B C D : List LogEntry,
      A ≠ [] ∧ B ≠ [] ∧ C ≠ [] ∧ D ≠ [] ∧
      (onboardStateful initOrch input).1.agentLogs =
        [("hr", A), ("it", B), ("training", C), ("buddy", D)] ∧
      (onboardStateful (onboardStateful initOrch input).2 input).1.agentLogs =
        [("hr", A ++ A), ("it", B ++ B), ("training", C ++ C), ("buddy", D ++ D)] ∧
      (onboardStateful (onboardStateful initOrch input).2 input).1.agentLogs ≠
        (onboardStateful initOrch input).1.agentLogs ∧
      (onboardStateful initOrch input).1.summary.agentSummaries.map
          (fun x => (x.1, x.2.totalActions)) =
        [("hr", A.length), ("it", B.length), ("training", C.length),
         ("buddy", D.length)] ∧
      (onboardStateful (onboardStateful initOrch input).2 input).1.summary.agentSummaries.map
          (fun x => (x.1, x.2.totalActions)) =
        [("hr", A.length + A.length), ("it", B.length + B.length),
         ("training", C.length + C.length), ("buddy", D.length + D.length)] ∧
      (onboardStateful (onboardStateful initOrch input).2 input).1.summary.agentSummaries ≠
        (onboardStateful initOrch input).1.summary.agentSummaries := by
  refine ⟨[startEntry hrName] ++ hrRunLog (copyFor { employee := initEmployee input }),
    [startEntry itName] ++ itRunLog (copyFor { employee := initEmployee input }),
    [startEntry trainingName] ++ trainingRunLog (copyFor { employee := initEmployee input }),
    [startEntry buddyName] ++ buddyRunLog (copyFor { employee := initEmployee input }),
    by simp, by simp, by simp, by simp, ?_, ?_, ?_, ?_, ?_, ?_⟩
  · simp [onboardStateful, onboardCore, mergeStep, initOrch,
      hr_run_eq, it_run_eq, training_run_eq, buddy_run_eq]
  · simp [onboardStateful, onboardCore, mergeStep, initOrch,
      hr_run_eq, it_run_eq, training_run_eq, buddy_run_eq]
  · simp [onboardStateful, onboardCore, mergeStep, initOrch,
      hr_run_eq, it_run_eq, training_run_eq, buddy_run_eq]
  · simp [onboardStateful, onboardCore, mergeStep, buildSummary, initOrch,
      hr_run_eq, it_run_eq, training_run_eq, buddy_run_eq]
  · simp [onboardStateful, onboardCore, mergeStep, buildSummary, initOrch,
      hr_run_eq, it_run_eq, training_run_eq, buddy_run_eq]
    omega
  · simp [onboardStateful, onboardCore, mergeStep, buildSummary, initOrch,
      hr_run_eq, it_run_eq, training_run_eq, buddy_run_eq]

theorem keyOr_none_right {α : Type} (x : Option α) : keyOr x none = x := by
  cases x <;> rfl

theorem keyOr_none_left {α : Type} (x : Option α) : keyOr none x = x := rfl

theorem keyOr_some_left {α : Type} (v : α) (x : Option α) :
    keyOr (some v) x = some v := rfl

/-- C7 (amended): in a run of `onboard` where all four agents fulfil and the
input employee record does not already bind any of the agent-owned fields
(email, emailProvisioned, benefitsEnrollmentStarted, managerMeetingScheduled,
teamIntroScheduled, buddy, checkInsScheduled), every agent's employee-field
writes survive the sequential overlay: the merged employee carries IT's
generated email and emailProvisioned, HR's benefitsEnrollmentStarted,
Training's two meeting flags, and the Buddy agent's buddy and
checkInsScheduled.  Dropping the new no-prior-binding hypothesis the claim
fails: a field already present in the input (even `null`-like) is re-overlaid
by later agents' copies, see `c7_field_overlay_counterexample`. -/
theorem c7_field_overlay (input : Employee) (s : OrchState)
    (h1 : input.email = none) (h2 : input.emailProvisioned = none)
    (h3 : input.benefitsEnrollmentStarted = none)
    (h4 : input.managerMeetingScheduled = none)
    (h5 : input.teamIntroScheduled = none)
    (h6 : input.buddy = none) (h7 : input.checkInsScheduled = none) :
    (onboardStateful s input).1.employee.emailProvisioned = some true ∧
    (onboardStateful s input).1.employee.email = some (genEmail input) ∧
    (onboardStateful s input).1.employee.benefitsEnrollmentStarted = some true ∧
    (onboardStateful s input).1.employee.managerMeetingScheduled = some true ∧
    (onboardStateful s input).1.employee.teamIntroScheduled = some true ∧
    (onboardStateful s input).1.employee.checkInsScheduled = some true ∧
    (onboardStateful s input).1.employee.buddy =
      selectBuddy buddyPool (buddyDept input) := by
  refine ⟨?_, ?_, ?_, ?_, ?_, ?_, ?_⟩ <;>
    simp [onboardStateful, onboardCore, mergeStep, hr_run_eq, it_run_eq,
      training_run_eq, buddy_run_eq, hrRunCtx_employee, itRunCtx_employee,
      trainingRunCtx_employee, buddyRunCtx_employee, hrApplyEmployee,
      itApplyEmployee, trainingApplyEmployee, buddyApplyEmployee, overlayEmployee,
      keyOr_none_right, keyOr_none_left, keyOr_some_left, initEmployee, copyFor,
      genEmail, buddyDept, truthyB, h1, h2, h3, h4, h5, h6, h7]

/-- C7 counterexample: with an input shaped exactly as the HTTP route's
employee store produces it — an `email` key present with a falsy value —
the IT agent's `email` write does not survive: the Training and Buddy
copies still carry the input's email and re-overlay it, so the merged
employee's email is the input value, not the address IT set. -/
theorem c7_field_overlay_counterexample :
    inputAna.email = some "" ∧
    ((runAgent itSpec [] (copyFor { employee := initEmployee inputAna })).outcome.map
      (fun c2 => c2.employee.email)) = .ok (some "ana.lopez@company.com") ∧
    (onboardStateful initOrch inputAna).1.employee.email = some "" := by
  refine ⟨rfl, ?_, ?_⟩
  · rw [it_run_eq]
    simp only [Except.map]
    rw [itRunCtx_employee]
    decide
  · simp [onboardStateful, onboardCore, mergeStep, hr_run_eq, it_run_eq,
      training_run_eq, buddy_run_eq, hrRunCtx_employee, itRunCtx_employee,
      trainingRunCtx_employee, buddyRunCtx_employee, hrApplyEmployee,
      itApplyEmployee, trainingApplyEmployee, buddyApplyEmployee, overlayEmployee,
      keyOr, initEmployee, copyFor, inputAna, truthyB]

/-- Witness for C7's amended theorem on a store-free input binding none of
the agent-owned fields. -/
theorem c7_field_overlay_witness :
    (onboardStateful initOrch scenarioEmployee).1.employee.emailProvisioned =
      some true ∧
    (onboardStateful initOrch scenarioEmployee).1.employee.email =
      some (genEmail scenarioEmployee) ∧
    (onboardStateful initOrch scenarioEmployee).1.employee.benefitsEnrollmentStarted =
      some true ∧
    (onboardStateful initOrch scenarioEmployee).1.employee.managerMeetingScheduled =
      some true ∧
    (onboardStateful initOrch scenarioEmployee).1.employee.teamIntroScheduled =
      some true ∧
    (onboardStateful initOrch scenarioEmployee).1.employee.checkInsScheduled =
      some true ∧
    (onboardStateful initOrch scenarioEmployee).1.employee.buddy =
      selectBuddy buddyPool (buddyDept scenarioEmployee) :=
  c7_field_overlay scenarioEmployee initOrch rfl rfl rfl rfl rfl rfl rfl

theorem hr_ids_sublist (e : Employee) :
    List.Sublist ((hrNewTasks e).map (fun t => t.id)) hrCatalogIds := by
  simp only [hrNewTasks, hrCatalogIds, List.map_append, List.map_map]
  refine List.Sublist.append (List.Sublist.append ?_ ?_) ?_
  · have hc : ((fun t : TaskRec => t.id) ∘ hrDocTask) =
        (fun d : HRDoc => "hr-doc-" ++ d.id) := rfl
    rw [hc, hrMissingDocs]
    exact (List.filter_sublist _).map _
  · have hc : ((fun t : TaskRec => t.id) ∘ hrPolicyTask) =
        (fun p : String => "hr-policy-" ++ p) := rfl
    rw [hc, hrPendingPolicies]
    exact (List.filter_sublist _).map _
  · by_cases hb : truthyB e.benefitsEnrollmentStarted <;> simp [hb, hrBenefitsTask]

theorem it_ids_sublist (e : Employee) :
    List.Sublist ((itNewTasks e).map (fun t => t.id)) (itCatalogIds (deptKey e)) := by
  simp only [itNewTasks, itCatalogIds, List.map_append, List.map_map]
  refine List.Sublist.append
    (List.Sublist.append (List.Sublist.append ?_ ?_) ?_) ?_
  · by_cases hb : truthyB e.emailProvisioned <;> simp [hb, itEmailTask]
  · have hc : ((fun t : TaskRec => t.id) ∘ itSwTask) =
        (fun s : String => "it-sw-" ++ swSlug s) := rfl
    rw [hc, neededSoftware]
    exact (List.filter_sublist _).map _
  · have hc : ((fun t : TaskRec => t.id) ∘ itHwTask) =
        (fun h : String => "it-hw-" ++ hwSlug h) := rfl
    rw [hc, neededHardware]
    exact (List.filter_sublist _).map _
  · have hc : ((fun t : TaskRec => t.id) ∘ itAccessTask) =
        (fun a : String => "it-access-" ++ accessSlug a) := rfl
    rw [hc]

theorem training_ids_sublist (e : Employee) :
    List.Sublist ((trainingNewTasks e).map (fun t => t.id))
      (trainingCatalogIds (deptKey e)) := by
  simp only [trainingNewTasks, trainingCatalogIds, List.map_append, List.map_map]
  rw [List.append_assoc]
  refine List.Sublist.append ?_ ?_
  · have hc1 : ((fun t : TaskRec => t.id) ∘ weekOneTask) =
        (fun m : TrainingModule => "training-" ++ m.id) := rfl
    have hc2 : ((fun t : TaskRec => t.id) ∘ weekTwoTask) =
        (fun m : TrainingModule => "training-" ++ m.id) := rfl
    rw [hc1, hc2, ← List.map_append, List.take_append_drop, pendingModules]
    exact (List.filter_sublist _).map _
  · by_cases h1 : truthyB e.managerMeetingScheduled <;>
      by_cases h2 : truthyB e.teamIntroScheduled <;>
        simp +decide [h1, h2, managerMeetingTask, teamIntroTask]

theorem buddy_ids_sublist (e : Employee) :
    List.Sublist ((buddyNewTasks e).map (fun t => t.id)) buddyCatalogIds := by
  simp only [buddyNewTasks, buddyCatalogIds, List.map_append, List.map_map]
  refine List.Sublist.append ?_ ?_
  · by_cases hb : e.buddy.isSome
    · simp [hb]
    · simp only [hb, Bool.false_eq_true, if_false]
      cases hs : selectBuddy buddyPool (buddyDept e) <;> simp [buddyIntroTask]
  · by_cases hb : truthyB e.checkInsScheduled <;> simp [hb, checkIns, checkInTask]

theorem mergedCatalogIds_nodup (d : String) : (mergedCatalogIds d).Nodup := by
  by_cases h1 : d = "engineering"
  · subst h1
    decide
  by_cases h2 : d = "design"
  · subst h2
    decide
  by_cases h3 : d = "product"
  · subst h3
    decide
  by_cases h4 : d = "sales"
  · subst h4
    decide
  · simp only [mergedCatalogIds, hrCatalogIds, itCatalogIds, trainingCatalogIds,
      buddyCatalogIds, roleProfiles, roleModulesFor, h1, h2, h3, h4, if_false]
    decide

/-- C8: after any `onboard` merge (any input employee, any agent-instance
state), the merged employee's task list contains no two entries with the
same id: every agent derives its ids deterministically from its fixed,
agent-prefixed catalogs, so the merged id list is a sublist of the
duplicate-free combined catalog. -/
theorem c8_task_id_nodup (input : Employee) (s : OrchState) :
    (((onboardStateful s input).1.employee.tasks).map (fun t => t.id)).Nodup := by
  have htasks : (onboardStateful s input).1.employee.tasks =
      hrNewTasks (initEmployee input) ++ itNewTasks (initEmployee input) ++
      trainingNewTasks (initEmployee input) ++ buddyNewTasks (initEmployee input) := by
    simp [onboardStateful, onboardCore, mergeStep, hr_run_eq, it_run_eq,
      training_run_eq, buddy_run_eq, hrRunCtx_employee, itRunCtx_employee,
      trainingRunCtx_employee, buddyRunCtx_employee, hrApplyEmployee,
      itApplyEmployee, trainingApplyEmployee, buddyApplyEmployee, initEmployee,
      copyFor]
  rw [htasks]
  have hsub : List.Sublist
      ((hrNewTasks (initEmployee input) ++ itNewTasks (initEmployee input) ++
        trainingNewTasks (initEmployee input) ++
        buddyNewTasks (initEmployee input)).map (fun t => t.id))
      (mergedCatalogIds (deptKey (initEmployee input))) := by
    simp only [List.map_append, mergedCatalogIds]
    exact List.Sublist.append (List.Sublist.append (List.Sublist.append
      (hr_ids_sublist _) (it_ids_sublist _)) (training_ids_sublist _))
      (buddy_ids_sublist _)
  exact List.Nodup.sublist hsub (mergedCatalogIds_nodup _)
